import Mathlib

/-!
Shallow embedding of `src/index.js` (node-formulator): the dependency-tree
resolution and normalization core, the hash fetcher's dispatch logic, and the
orchestrating output chain.

JavaScript objects used as string-keyed dictionaries are embedded as
association lists in insertion order (JS objects iterate string keys in
insertion order); `alookup` is property read, `assocSet` is property write
(overwrite in place if the key exists, append otherwise).  Promises are
modelled by recording the action they would perform (`HashAction`) plus an
oracle for network results; thrown errors / rejected promises are `Except`.
-/

/-- JS truthiness of an optional string field: `undefined` and `""` are falsy. -/
def strTruthy : Option String → Bool
  | none => false
  | some s => s ≠ ""

/-- Association-list lookup (JS property read on a string-keyed object). -/
def alookup {α : Type} : List (String × α) → String → Option α
  | [], _ => none
  | (k, v) :: rest, k' => if k = k' then some v else alookup rest k'

/-- Association-list write (JS property write on a string-keyed object):
replaces the value in place if the key is present, else appends. -/
def assocSet {α : Type} (l : List (String × α)) (k : String) (v : α) : List (String × α) :=
  if (alookup l k).isSome then
    l.map (fun p => if p.1 = k then (k, v) else p)
  else
    l ++ [(k, v)]

/-- First-seen-order deduplication (the `indexOf === -1` push pattern). -/
def dedupeKeep (l : List String) : List String :=
  l.foldl (fun acc x => if x ∈ acc then acc else acc ++ [x]) []

mutual
/-- One node of the `npm ls --json --long` dependency tree (`DependencyNode`).
Fields: `_id`, `_resolved`, `_location`, `_requiredBy`, `scripts.install`,
`bin`, whether `bundleDependencies` is present and non-empty, whether
`optionalDependencies` is present and non-empty, and `dependencies`. -/
inductive DepNode where
  | mk :
      Option String →
      Option String →
      String →
      List String →
      Option String →
      Option (List (String × String)) →
      Bool →
      Bool →
      DepList → DepNode
/-- The child dependency mapping of a node, in iteration order. -/
inductive DepList where
  | nil : DepList
  | cons : String → DepNode → DepList → DepList
end

def DepNode.id : DepNode → Option String
  | .mk i _ _ _ _ _ _ _ _ => i

def DepNode.resolved : DepNode → Option String
  | .mk _ r _ _ _ _ _ _ _ => r

def DepNode.location : DepNode → String
  | .mk _ _ l _ _ _ _ _ _ => l

def DepNode.requiredBy : DepNode → List String
  | .mk _ _ _ rb _ _ _ _ _ => rb

def DepNode.installScript : DepNode → Option String
  | .mk _ _ _ _ s _ _ _ _ => s

def DepNode.bin : DepNode → Option (List (String × String))
  | .mk _ _ _ _ _ b _ _ _ => b

def DepNode.hasBundleDeps : DepNode → Bool
  | .mk _ _ _ _ _ _ bd _ _ => bd

def DepNode.hasOptionalDeps : DepNode → Bool
  | .mk _ _ _ _ _ _ _ od _ => od

def DepNode.dependencies : DepNode → DepList
  | .mk _ _ _ _ _ _ _ _ ds => ds

/-- JS template interpolation of `d._id` (prints `undefined` when absent). -/
def idStr (d : DepNode) : String := (DepNode.id d).getD "undefined"

/-- A `resources` entry (`ResourceRecord`): the dynamically-shaped `info`
object of `resolveDependencies`; fields absent on the JS object are `none`. -/
structure Info where
  url : String
  install : Option String := none
  bin : Option (List (String × String)) := none
  nested : Option Bool := none
  name : Option String := none
  parent : Option (List String) := none
deriving Repr, DecidableEq

/-- What a `getHash` call does: resolve immediately to null, or start an
https fetch of the given URL whose digest arrives later. -/
inductive HashAction where
  | resolveNull : HashAction
  | fetch : String → HashAction
deriving Repr, DecidableEq

/-- `p` is a prefix of `s` (JS `s.indexOf(p) === 0`; `!== 0` is the negation,
whether `indexOf` returns `-1` or a positive index). -/
def strStarts (p s : String) : Bool := p.data.isPrefixOf s.data

/-- The warning `getHash` logs for a non-`https://` URL (line 34). -/
def hashWarning (url : String) : String :=
  "==> Warning: We are only supported npm registry hosted dependency yet and not the one hosted at "
    ++ url ++ ". You will have to fill the particular resource fields out by hand for this dependency.\n"

/-- `getHash` (lines 31-49): absent URL resolves immediately to null; a URL
not starting with `https://` logs one warning and resolves to null; otherwise
an https fetch is started.  Returns (warnings logged, action taken). -/
def getHash : Option String → List String × HashAction
  | none => ([], HashAction.resolveNull)
  | some url =>
      if strStarts "https://" url = false then ([hashWarning url], HashAction.resolveNull)
      else ([], HashAction.fetch url)

/-- `getDepTreeBranch` (lines 51-60): every match of the global regex
`\/([^\/]+)` over the location string, i.e. each maximal non-empty run of
non-slash characters that follows a slash.  Single-pass scan; `cur = none`
while no slash has been seen yet, `cur = some acc` while a segment candidate
is being accumulated (in reverse). -/
def branchAux (cur : Option (List Char)) : List Char → List String
  | [] =>
      match cur with
      | some acc => if acc = [] then [] else [String.mk acc.reverse]
      | none => []
  | c :: rest =>
      match cur with
      | some acc =>
          if c = '/' then
            if acc = [] then branchAux (some []) rest
            else String.mk acc.reverse :: branchAux (some []) rest
          else branchAux (some (c :: acc)) rest
      | none =>
          if c = '/' then branchAux (some []) rest
          else branchAux none rest

def getDepTreeBranch (location : String) : List String := branchAux none location.data

/-- JS `String.prototype.replace` with a string pattern: replace the first
occurrence only. -/
def replFirstAux (pat repl : List Char) : List Char → List Char
  | [] => []
  | c :: rest =>
      if pat.isPrefixOf (c :: rest) then repl ++ (c :: rest).drop pat.length
      else c :: replFirstAux pat repl rest

def replaceFirst (s pat repl : String) : String :=
  String.mk (replFirstAux pat.data repl.data s.data)

/-- The install-script rewrite of line 81: force `node-pre-gyp` to
`--build-from-source` and `prebuild` to `--compile`. -/
def rewriteInstall (s : String) : String :=
  replaceFirst (replaceFirst s "node-pre-gyp" "node-pre-gyp --build-from-source")
    "prebuild" "prebuild --compile"

/-- The mutable module-level state of the resolver (lines 62-66), plus the
stderr log.  `resources_sha256s` records, per resource key, the `getHash`
action started for it. -/
structure St where
  resources : List (String × Info)
  reverse_location : List (String × String)
  resources_sha256s : List (String × HashAction)
  nested_root_deps : List (String × DepNode)
  native_addons : List Info
  log : List String

def initSt : St :=
  { resources := [], reverse_location := [], resources_sha256s := [],
    nested_root_deps := [], native_addons := [], log := [] }

/-- Warning of line 71 (verbatim, typos included). -/
def bundleWarning (i : String) : String :=
  "==> Warning: No support for bundled dependencies yet requested by " ++ i
    ++ ". Currently we just pretend they weren't there and installing them a second time at the flat dependenvy structure, which may cause linking conflict which you need to resolve by hand!\n"

/-- Warning of line 72. -/
def optionalWarning (i : String) : String :=
  "==> Warning: No support for optional dependencies yet requested by " ++ i
    ++ ". Currently we just ignore them because we can't guarantee that they will work on the current platform and we don't have a fallback mechanism for them yet.\n"

/-- The two warning writes at the top of the loop body (lines 71-72). -/
def warnStep (st : St) (d : DepNode) : St :=
  let st1 :=
    if DepNode.hasBundleDeps d then { st with log := st.log ++ [bundleWarning (idStr d)] }
    else st
  if DepNode.hasOptionalDeps d then { st1 with log := st1.log ++ [optionalWarning (idStr d)] }
  else st1

/-- `resolveDependencies` (lines 68-107).  One function iterating the child
mapping, exactly as the JS `for (let n in deps)` loop with its recursion at
line 105.  The JS `info` object is pushed into `native_addons` by reference
at line 82 and mutated afterwards within the same iteration; we record the
entry by its value at the end of the iteration, which is its final value for
every field the formatter reads (only `parent` is ever mutated later, by the
normalizer, and `native_addons` output reads only `name` and `install`).
The merge branch (line 94) calls `.concat` on the existing record's `parent`;
when that field is absent the JS program throws a `TypeError`, modelled as an
error result. -/
def resolveDependencies (native : Bool) (st : St) : DepList → Except String St
  | .nil => .ok st
  | .cons n (DepNode.mk i res loc reqBy inst dbin bd od children) rest =>
      let d : DepNode := DepNode.mk i res loc reqBy inst dbin bd od children
      let st0 := warnStep st d
      if strTruthy i = false then
        -- line 73: `if (!d._id) continue;`
        resolveDependencies native st0 rest
      else if strTruthy res = false then
        -- lines 74-77: record as nested root dep and continue (no recursion)
        resolveDependencies native
          { st0 with nested_root_deps := assocSet st0.nested_root_deps n d } rest
      else
        let theId := i.getD ""
        let url := res.getD ""
        let branch := getDepTreeBranch loc
        let hasInstall := strTruthy inst
        let info1 : Info :=
          if hasInstall then { url := url, install := some (rewriteInstall (inst.getD "")) }
          else { url := url }
        if branch.length = 1 then
          -- lines 84-91: root level dependency
          let info2 := if native && dbin.isSome then { info1 with bin := dbin } else info1
          if (alookup st0.resources n).isSome then
            .error ("error resolving root dependency: " ++ theId)
          else
            let info3 := { info2 with nested := some false, name := some n }
            let st1 : St :=
              { st0 with
                resources := st0.resources ++ [(n, info3)],
                resources_sha256s := assocSet st0.resources_sha256s n (getHash (some url)).2,
                reverse_location := assocSet st0.reverse_location loc n,
                native_addons := st0.native_addons ++ (if hasInstall then [info3] else []),
                log := st0.log ++ (getHash (some url)).1 }
            match resolveDependencies native st1 children with
            | .error e => .error e
            | .ok st2 => resolveDependencies native st2 rest
        else
          -- lines 92-104: nested dependency
          match alookup st0.resources theId with
          | some r =>
              match r.parent with
              | none => .error ("TypeError: Cannot read property concat of undefined")
              | some ps =>
                  let st1 : St :=
                    { st0 with
                      resources :=
                        assocSet st0.resources theId { r with parent := some (ps ++ reqBy) },
                      reverse_location := assocSet st0.reverse_location loc theId,
                      native_addons := st0.native_addons ++ (if hasInstall then [info1] else []) }
                  match resolveDependencies native st1 children with
                  | .error e => .error e
                  | .ok st2 => resolveDependencies native st2 rest
          | none =>
              let info3 :=
                { info1 with nested := some true, parent := some reqBy, name := some theId }
              let st1 : St :=
                { st0 with
                  resources := st0.resources ++ [(theId, info3)],
                  resources_sha256s := assocSet st0.resources_sha256s theId (getHash (some url)).2,
                  reverse_location := assocSet st0.reverse_location loc theId,
                  native_addons := st0.native_addons ++ (if hasInstall then [info3] else []),
                  log := st0.log ++ (getHash (some url)).1 }
              match resolveDependencies native st1 children with
              | .error e => .error e
              | .ok st2 => resolveDependencies native st2 rest

/-- The shared lookup-and-dedupe-push loop of both normalizer passes
(lines 116-120 and 128-132): resolves each raw location through
`reverse_location`, throwing `emsg` on a missing entry, pushing each resolved
identifier onto `acc` unless already present. -/
def resolveParentLoop (rl : List (String × String)) (emsg : String)
    (acc : List String) : List String → Except String (List String)
  | [] => .ok acc
  | p :: rest =>
      match alookup rl p with
      | none => .error emsg
      | some rev_p =>
          resolveParentLoop rl emsg (if rev_p ∈ acc then acc else acc ++ [rev_p]) rest

/-- Pass 1 body for one deferred root dependency (lines 110-121): find the
real record by name (fatal if absent), index the deferred node's own location
to its bare name, initialize the parent list if absent, then resolve and push
each raw requirer location. -/
def pass1Entry (st : St) (n : String) (d : DepNode) : Except String St :=
  match alookup st.resources n with
  | none => .error ("error resolving nested root dependency: " ++ idStr d)
  | some r =>
      let rl := assocSet st.reverse_location (DepNode.location d) n
      let r0 := if r.parent.isNone then { r with parent := some [] } else r
      match resolveParentLoop rl ("error normalizing nested root dependency: " ++ idStr d)
          ((Info.parent r0).getD []) (DepNode.requiredBy d) with
      | .error e => .error e
      | .ok ps =>
          .ok { st with reverse_location := rl,
                        resources := assocSet st.resources n { r0 with parent := some ps } }

def pass1 (st : St) : List (String × DepNode) → Except String St
  | [] => .ok st
  | (n, d) :: rest =>
      match pass1Entry st n d with
      | .error e => .error e
      | .ok st1 => pass1 st1 rest

/-- Pass 2 body for one resource (lines 122-133): for a nested record,
replace the raw pending-parent location list by resolved identifiers,
throwing if the list is empty or a location is not indexed.  Reading
`.length` of an absent parent list is a JS `TypeError`. -/
def pass2Entry (rl : List (String × String)) (n : String) (r : Info) : Except String Info :=
  if (Info.nested r).getD false then
    match r.parent with
    | none => .error ("TypeError: Cannot read property length of undefined")
    | some p =>
        if p.length = 0 then .error ("error normalizing nested dependency: " ++ n)
        else
          match resolveParentLoop rl ("error normalizing nested dependency: " ++ n) [] p with
          | .error e => .error e
          | .ok ps => .ok { r with parent := some ps }
  else .ok r

def pass2Map (rl : List (String × String)) : List (String × Info) → Except String (List (String × Info))
  | [] => .ok []
  | (n, r) :: rest =>
      match pass2Entry rl n r with
      | .error e => .error e
      | .ok r' =>
          match pass2Map rl rest with
          | .error e => .error e
          | .ok rest' => .ok ((n, r') :: rest')

/-- `normalizeDepParents` (lines 109-135): pass 1 over the deferred root
dependencies, then pass 2 over all resources. -/
def normalizeDepParents (st : St) : Except String St :=
  match pass1 st st.nested_root_deps with
  | .error e => .error e
  | .ok st1 =>
      match pass2Map st1.reverse_location st1.resources with
      | .error e => .error e
      | .ok rs => .ok { st1 with resources := rs }

/-- Resolution followed by normalization, from the empty initial state
(lines 193-195 of the main chain). -/
def runResolve (native : Bool) (deps : DepList) : Except String St :=
  match resolveDependencies native initSt deps with
  | .error e => .error e
  | .ok st => normalizeDepParents st

/-- Continuation of the loop after the recursion of line 105: propagate a
thrown error, else finish the remaining siblings. -/
def contThen (native : Bool) (r : Except String St) (rest : DepList) : Except String St :=
  match r with
  | .error e => .error e
  | .ok st2 => resolveDependencies native st2 rest

/-- The `info` object as of line 83 (url, plus the rewritten install script
when one is declared). -/
def baseInfo (res inst : Option String) : Info :=
  if strTruthy inst then
    { url := res.getD "", install := some (rewriteInstall (inst.getD "")) }
  else { url := res.getD "" }

/-- The `info` object a root-level creation stores (lines 85-89). -/
def rootInfo (native : Bool) (res inst : Option String)
    (dbin : Option (List (String × String))) (n : String) : Info :=
  let info2 :=
    if native && dbin.isSome then { baseInfo res inst with bin := dbin } else baseInfo res inst
  { info2 with nested := some false, name := some n }

/-- The `info` object a first nested encounter stores (lines 97-100). -/
def nestedInfo (res inst : Option String) (reqBy : List String) (theId : String) : Info :=
  { baseInfo res inst with nested := some true, parent := some reqBy, name := some theId }

def exOk {α : Type} : Except String α → Bool
  | .ok _ => true
  | .error _ => false

def resourcesOf : Except String St → List (String × Info)
  | .ok st => st.resources
  | .error _ => []

def nativeAddonsOf : Except String St → List Info
  | .ok st => st.native_addons
  | .error _ => []

def deferredOf : Except String St → List (String × DepNode)
  | .ok st => st.nested_root_deps
  | .error _ => []

def revlocOf : Except String St → List (String × String)
  | .ok st => st.reverse_location
  | .error _ => []

def keysOf {α : Type} (l : List (String × α)) : List String := l.map Prod.fst

def stOf : Except String St → St
  | .ok st => st
  | .error _ => initSt

/-! ## The orchestrating main chain (lines 158-259)

The out-of-scope glue is modelled only as far as claims about it reach: the
ordered list of `out.write` calls the promise chain performs, with the
subprocess / network / filesystem collaborators abstracted as parameters
(`hash` is the digest an https fetch would deliver — possibly null, line 43;
a transport error would instead reject and abort the run — and `pn` is
Node's `path.normalize`).  `native` is computed by the glue from the raw
JSON text (line 160) and is passed in. -/

/-- The top-level package data used by the formatter (`npm ls` root object). -/
structure TopData where
  description : Option String
  homepage : Option String
  resolved : Option String
  bin : List (String × String)
  dependencies : DepList

/-- `module_name.replace(/\b\w/g, c => c.toUpperCase()).replace(/\W/g,'')`
(line 162): uppercase each word character at a word boundary, then strip the
non-word characters. -/
def isWordChar (c : Char) : Bool := c.isAlphanum || c = '_'

def capWordStarts : Bool → List Char → List Char
  | _, [] => []
  | prevWord, c :: rest =>
      (if isWordChar c && !prevWord then c.toUpper else c) :: capWordStarts (isWordChar c) rest

def className (s : String) : String :=
  String.mk ((capWordStarts false s.data).filter isWordChar)

/-- Await one recorded hash action (the digest a resolved `getHash` promise
delivers). -/
def awaitHash (hash : String → Option String) : HashAction → Option String
  | HashAction.resolveNull => none
  | HashAction.fetch u => hash u

def resolveHashes (hash : String → Option String) :
    List (String × HashAction) → List (String × Option String)
  | [] => []
  | (k, a) :: rest => (k, awaitHash hash a) :: resolveHashes hash rest

/-- JS template interpolation of a digest-or-null (`null` prints as the word). -/
def digestStr : Option String → String
  | some h => h
  | none => "null"

/-- The writes of lines 161-180: require/class header, description,
homepage, url and sha256 of the top package (truthiness tests as in JS:
an empty string counts as absent). -/
def headerWrites (module_name : String) (data : TopData) (hash : String → Option String) :
    List String :=
  ["require File.expand_path(\"../../Homebrew/node\", __FILE__)\n\n",
   "class " ++ className module_name ++ " < Formula\n"] ++
  (if strTruthy data.description then
      (if (((data.description.getD "").length : Int) > 62 - (module_name.length : Int)) then
          ["  # TODO: shorten description\n"]
        else []) ++
      ["  desc \"" ++ data.description.getD "" ++ "\"\n"]
    else ["  desc \"\" # TODO: add a description\n"]) ++
  (if strTruthy data.homepage then
      ["  homepage \"" ++ data.homepage.getD "" ++ "\"\n"]
    else ["  homepage \"\" # TODO: add a homepage\n"]) ++
  (if strTruthy data.resolved then
      ["  url \"" ++ data.resolved.getD "" ++ "\"\n",
       "  sha256 \"" ++ digestStr (awaitHash hash (getHash data.resolved).2) ++ "\"\n\n"]
    else
      ["  url \"\" # TODO: add the download URL\n",
       "  sha256 \"\" # TODO: add the sha256 sum\n\n"])

/-- The writes of lines 182-190: node dependency and, in native mode, the
python build dependency and bottle gate. -/
def dependsWrites (native : Bool) : List String :=
  ["  depends_on \"node\"\n"] ++
  (if native then
      ["  depends_on :python => :build\n\n",
       "  pour_bottle? do\n",
       "    reason \"The bottle requires Node v5.x\"\n",
       "    satisfy \x7b Language::Node.is_major(5) \x7d\n",
       "  end\n"]
    else []) ++
  ["\n"]

/-- The sort of lines 198-202: non-nested resources first, then nested, each
block in ascending name order (for distinct keys the JS comparator orders
exactly so). -/
def insertAsc (x : String) : List String → List String
  | [] => [x]
  | y :: ys => if x < y then x :: y :: ys else y :: insertAsc x ys

def sortAsc (l : List String) : List String := l.foldr insertAsc []

def isNestedKey (rs : List (String × Info)) (k : String) : Bool :=
  match alookup rs k with
  | some r => (Info.nested r).getD false
  | none => false

def sortedResourceKeys (rs : List (String × Info)) : List String :=
  sortAsc ((keysOf rs).filter (fun k => !(isNestedKey rs k))) ++
  sortAsc ((keysOf rs).filter (isNestedKey rs))

/-- The `bin({...})` writes of lines 212-219. -/
def binWrites (pn : String → String) (first : Bool) : List (String × String) → List String
  | [] => []
  | (t, pth) :: rest =>
      ((if first then "" else ", ") ++ "\"" ++ pn pth ++ "\" => \"" ++ t ++ "\"")
        :: binWrites pn false rest

/-- The `parent ...` write of lines 221-227. -/
def parentWrites : Option (List String) → List String
  | none => []
  | some ps =>
      if ps.length = 1 then ["    parent \"" ++ ps.headD "" ++ "\"\n"]
      else ["    parent [\"" ++ String.intercalate "\", \"" ps ++ "\"]\n"]

/-- One `resource ... do ... end` block per sorted key (lines 203-229). -/
def resourceWrites (pn : String → String) (rs : List (String × Info))
    (shas : List (String × Option String)) : List String → List String
  | [] => []
  | k :: ks =>
      let info := (alookup rs k).getD { url := "" }
      (["  resource \"" ++ k ++ "\", NodeModule do\n",
        "    url \"" ++ info.url ++ "\"\n"] ++
       (match alookup shas k with
        | some (some h) =>
            if h ≠ "" then ["    sha256 \"" ++ h ++ "\"\n"]
            else ["    sha256 \"\" # TODO: fill in download informations manually\n"]
        | _ => ["    sha256 \"\" # TODO: fill in download informations manually\n"]) ++
       (match info.bin with
        | none => []
        | some b => ["    bin(\x7b"] ++ binWrites pn true b ++ ["\x7d)\n"]) ++
       parentWrites info.parent ++
       ["  end\n\n"]) ++ resourceWrites pn rs shas ks

/-- The per-addon `cd ... do system ... end` writes of lines 235-240 (the JS
template prints an absent `name` as the word `undefined`). -/
def nativeAddonWrites : List Info → List String
  | [] => []
  | a :: rest =>
      ["    cd libexec/\"node_modules/" ++ (a.name.getD "undefined") ++ "\" do\n",
       "      system \"" ++ (a.install.getD "undefined") ++ "\"\n",
       "    end\n"] ++ nativeAddonWrites rest

def binSymlinkWrites (pn : String → String) : List (String × String) → List String
  | [] => []
  | (t, pth) :: rest =>
      ("    bin.install_symlink libexec/\"" ++ pn pth ++ "\" => \"" ++ t ++ "\"\n")
        :: binSymlinkWrites pn rest

/-- The install and test sections (lines 231-251). -/
def installWrites (native : Bool) (addons : List Info) (pn : String → String)
    (dbin : List (String × String)) : List String :=
  ["  def install\n", "    libexec.install Dir[\"*\"]\n"] ++
  (if native then
      ["    Language::Node.node_modules_install resources, libexec/\"node_modules\", true\n"]
        ++ nativeAddonWrites addons
    else
      ["    Language::Node.node_modules_install resources, libexec/\"node_modules\"\n"]) ++
  binSymlinkWrites pn dbin ++
  ["  end\n\n", "  test do\n", "    # TODO: add a test\n", "  end\n", "end\n"]

/-- The whole output stage from the parsed tree onward (lines 158-252):
the ordered `out.write` calls and, if resolution or normalization throws,
the error that rejects the chain.  The header and dependency preamble are
written before `resolveDependencies` runs (lines 161-190 precede line 193);
an uncaught error aborts the remaining `.then` blocks, leaving whatever was
already written on the stream. -/
def mainChain (module_name : String) (native : Bool) (data : TopData)
    (hash : String → Option String) (pn : String → String) :
    List String × Option String :=
  let pre := headerWrites module_name data hash ++ dependsWrites native
  match resolveDependencies native initSt data.dependencies with
  | .error e => (pre, some e)
  | .ok st =>
      match normalizeDepParents st with
      | .error e => (pre, some e)
      | .ok st1 =>
          let shas := resolveHashes hash st1.resources_sha256s
          (pre ++
             resourceWrites pn st1.resources shas (sortedResourceKeys st1.resources) ++
             installWrites native st1.native_addons pn data.bin,
           none)

mutual
/-- Size measure used for induction over the tree walk. -/
def DepNode.sz : DepNode → Nat
  | .mk _ _ _ _ _ _ _ _ ds => 1 + DepList.sz ds
def DepList.sz : DepList → Nat
  | .nil => 0
  | .cons _ d rest => 1 + DepNode.sz d + DepList.sz rest
end

/-- The structural invariant the resolver maintains on its state: resource
keys are mutually distinct; every record's `name` equals its key; every
location-index value is a present resource key; and a record that is not
nested carries no parent list (parents of root records appear only during
normalization). -/
def ResInv (st : St) : Prop :=
  (keysOf st.resources).Nodup ∧
  (∀ k r, alookup st.resources k = some r → r.name = some k) ∧
  (∀ loc i, alookup st.reverse_location loc = some i →
    (alookup st.resources i).isSome = true) ∧
  (∀ k r, alookup st.resources k = some r → (Info.nested r).getD false = false →
    r.parent = none)

/-- What normalization preserves: every location-index value is a present
resource key, and every parent entry already attached to a record that is
not nested is a present resource key. -/
def NormInv (st : St) : Prop :=
  (∀ loc i, alookup st.reverse_location loc = some i →
    (alookup st.resources i).isSome = true) ∧
  (∀ k r, alookup st.resources k = some r → (Info.nested r).getD false = false →
    ∀ ps, r.parent = some ps → ∀ x ∈ ps, (alookup st.resources x).isSome = true)

/-! ## Concrete example trees used by closed theorems -/

/-- Spec example for merging: root A and root C both depend on B, nested at
two different locations but with the same composite identifier. -/
def c1B1 : DepNode :=
  .mk (some "B@1.0.0") (some "https://r/b") "/A/node_modules/B" ["/A"] none none false false .nil
def c1A : DepNode :=
  .mk (some "A@1.0.0") (some "https://r/a") "/A" ["/"] none none false false (.cons "B" c1B1 .nil)
def c1B2 : DepNode :=
  .mk (some "B@1.0.0") (some "https://r/b") "/C/node_modules/B" ["/C"] none none false false .nil
def c1C : DepNode :=
  .mk (some "C@1.0.0") (some "https://r/c") "/C" ["/"] none none false false (.cons "B" c1B2 .nil)
def c1Tree : DepList := .cons "A" c1A (.cons "C" c1C .nil)

/-- A node with an identifier but no resolved URL, whose child Y is fully
resolved. -/
def c2Y : DepNode :=
  .mk (some "Y@1.0.0") (some "https://r/y") "/X/node_modules/Y" ["/X"] none none false false .nil
def c2X : DepNode :=
  .mk (some "X@1.0.0") none "/X" ["/"] none none false false (.cons "Y" c2Y .nil)
def c2Tree : DepList := .cons "X" c2X .nil

/-- Two root-level (single-segment-location) nodes with bare name A: the
second is a child of the first but sits at a root location. -/
def c4A2 : DepNode :=
  .mk (some "A@2.0.0") (some "https://r/a2") "/A" ["/"] none none false false .nil
def c4A : DepNode :=
  .mk (some "A@1.0.0") (some "https://r/a") "/A" ["/"] none none false false (.cons "A" c4A2 .nil)
def c4Tree : DepList := .cons "A" c4A .nil
def c4Data : TopData :=
  { description := none, homepage := none, resolved := none, bin := [], dependencies := c4Tree }
def c4Out : List String × Option String :=
  mainChain "foo" false c4Data (fun _ => none) (fun s => s)

/-- A root-level B and a nested B\@1.0.0 sharing the bare package name. -/
def c5Bnested : DepNode :=
  .mk (some "B@1.0.0") (some "https://r/b1") "/A/node_modules/B" ["/A"] none none false false .nil
def c5A : DepNode :=
  .mk (some "A@1.0.0") (some "https://r/a") "/A" ["/"] none none false false (.cons "B" c5Bnested .nil)
def c5Broot : DepNode :=
  .mk (some "B@2.0.0") (some "https://r/b2") "/B" ["/"] none none false false .nil
def c5Tree : DepList := .cons "A" c5A (.cons "B" c5Broot .nil)

/-- Duplicated nested dependency where both occurrences carry an install
script: the second (merge) occurrence is pushed to the native-addon list
without a name. -/
def c7B1 : DepNode :=
  .mk (some "B@1.0.0") (some "https://r/b") "/A/node_modules/B" ["/A"] (some "prebuild") none false false .nil
def c7A : DepNode :=
  .mk (some "A@1.0.0") (some "https://r/a") "/A" ["/"] none none false false (.cons "B" c7B1 .nil)
def c7B2 : DepNode :=
  .mk (some "B@1.0.0") (some "https://r/b") "/C/node_modules/B" ["/C"] (some "prebuild") none false false .nil
def c7C : DepNode :=
  .mk (some "C@1.0.0") (some "https://r/c") "/C" ["/"] none none false false (.cons "B" c7B2 .nil)
def c7Tree : DepList := .cons "A" c7A (.cons "C" c7C .nil)

/-- A deferred root dependency X (deduped occurrence, no `_resolved`) whose
own tree-location `/deduped/X` is the raw requirer location of nested B; the
location is indexed nowhere during resolution and only pass 1 of the
normalizer inserts it. -/
def c9B : DepNode :=
  .mk (some "B@1.0.0") (some "https://r/b") "/A/node_modules/B" ["/deduped/X"] none none false false .nil
def c9Xd : DepNode :=
  .mk (some "X@1.0.0") none "/deduped/X" ["/A"] none none false false .nil
def c9A : DepNode :=
  .mk (some "A@1.0.0") (some "https://r/a") "/A" ["/"] none none false false
    (.cons "B" c9B (.cons "X" c9Xd .nil))
def c9Xr : DepNode :=
  .mk (some "X@1.0.0") (some "https://r/x") "/X" ["/"] none none false false .nil
def c9Tree : DepList := .cons "A" c9A (.cons "X" c9Xr .nil)

/-! ## Lemmas on the association-list operations -/

theorem alookup_append {α : Type} (l1 l2 : List (String × α)) (k : String) :
    alookup (l1 ++ l2) k =
      match alookup l1 k with
      | some v => some v
      | none => alookup l2 k := by
  induction l1 with
  | nil => simp [alookup]
  | cons p rest ih =>
      obtain ⟨k', v⟩ := p
      by_cases h : k' = k <;> simp [alookup, h, ih]

theorem alookup_map_set {α : Type} (l : List (String × α)) (k : String) (v : α) (k' : String) :
    alookup (l.map (fun p => if p.1 = k then (k, v) else p)) k' =
      if k = k' then (if (alookup l k).isSome then some v else none)
      else alookup l k' := by
  induction l with
  | nil => by_cases h : k = k' <;> simp [alookup, h]
  | cons p rest ih =>
      obtain ⟨a, b⟩ := p
      rw [List.map_cons]
      by_cases hak : a = k
      · subst hak
        rw [if_pos rfl]
        by_cases hkk : a = k'
        · subst hkk
          simp [alookup]
        · simp [alookup, hkk, ih]
      · rw [if_neg (by simpa using hak)]
        by_cases hak' : a = k'
        · subst hak'
          have hka : ¬ k = a := fun h => hak h.symm
          simp [alookup, hka]
        · simp [alookup, hak, hak', ih]

theorem alookup_assocSet {α : Type} (l : List (String × α)) (k : String) (v : α) (k' : String) :
    alookup (assocSet l k v) k' = if k = k' then some v else alookup l k' := by
  unfold assocSet
  by_cases h : (alookup l k).isSome
  · simp [h, alookup_map_set]
  · simp only [h, if_false, Bool.false_eq_true, alookup_append]
    by_cases hkk : k = k'
    · subst hkk
      simp only [Option.not_isSome_iff_eq_none] at h
      simp [h, alookup]
    · cases hlk : alookup l k' <;> simp [alookup, hkk, Ne.symm hkk]

theorem keysOf_map_set {α : Type} (l : List (String × α)) (k : String) (v : α) :
    keysOf (l.map (fun p => if p.1 = k then (k, v) else p)) = keysOf l := by
  unfold keysOf
  rw [List.map_map]
  apply List.map_congr_left
  intro p _
  by_cases hp : p.1 = k
  · simp [hp]
  · simp [hp]

theorem keysOf_assocSet_present {α : Type} (l : List (String × α)) (k : String) (v : α)
    (h : (alookup l k).isSome = true) :
    keysOf (assocSet l k v) = keysOf l := by
  unfold assocSet
  simp only [h, if_true]
  exact keysOf_map_set l k v

theorem keysOf_assocSet_absent {α : Type} (l : List (String × α)) (k : String) (v : α)
    (h : alookup l k = none) :
    keysOf (assocSet l k v) = keysOf l ++ [k] := by
  unfold assocSet keysOf
  simp [h]

theorem alookup_none_iff {α : Type} (l : List (String × α)) (k : String) :
    alookup l k = none ↔ k ∉ keysOf l := by
  induction l with
  | nil => simp [alookup, keysOf]
  | cons p rest ih =>
      obtain ⟨a, b⟩ := p
      unfold keysOf at *
      by_cases hak : a = k
      · subst hak
        simp [alookup]
      · have hka : ¬ k = a := fun h => hak h.symm
        simp [alookup, hak, hka, ih]

theorem alookup_isSome_iff {α : Type} (l : List (String × α)) (k : String) :
    (alookup l k).isSome = true ↔ k ∈ keysOf l := by
  constructor
  · intro hs
    by_contra hk
    rw [(alookup_none_iff l k).mpr hk] at hs
    simp at hs
  · intro hk
    by_contra hs
    have hnone : alookup l k = none := by
      cases hx : alookup l k with
      | none => rfl
      | some v => rw [hx] at hs; simp at hs
    exact (alookup_none_iff l k).mp hnone hk

theorem warnStep_resources (st : St) (d : DepNode) :
    (warnStep st d).resources = st.resources := by
  unfold warnStep; split <;> split <;> rfl

theorem warnStep_reverse_location (st : St) (d : DepNode) :
    (warnStep st d).reverse_location = st.reverse_location := by
  unfold warnStep; split <;> split <;> rfl

theorem warnStep_sha256s (st : St) (d : DepNode) :
    (warnStep st d).resources_sha256s = st.resources_sha256s := by
  unfold warnStep; split <;> split <;> rfl

theorem warnStep_nested_root_deps (st : St) (d : DepNode) :
    (warnStep st d).nested_root_deps = st.nested_root_deps := by
  unfold warnStep; split <;> split <;> rfl

theorem warnStep_native_addons (st : St) (d : DepNode) :
    (warnStep st d).native_addons = st.native_addons := by
  unfold warnStep; split <;> split <;> rfl

/-! ## Single-iteration characterizations of the resolver loop -/

theorem resolve_cons_skip (native : Bool) (st : St) (n : String)
    (i res : Option String) (loc : String) (reqBy : List String) (inst : Option String)
    (dbin : Option (List (String × String))) (bd od : Bool) (children rest : DepList)
    (hid : strTruthy i = false) :
    resolveDependencies native st (.cons n (.mk i res loc reqBy inst dbin bd od children) rest) =
      resolveDependencies native (warnStep st (.mk i res loc reqBy inst dbin bd od children)) rest := by
  rw [resolveDependencies]
  simp [hid]

theorem resolve_cons_defer (native : Bool) (st : St) (n : String)
    (i res : Option String) (loc : String) (reqBy : List String) (inst : Option String)
    (dbin : Option (List (String × String))) (bd od : Bool) (children rest : DepList)
    (hid : strTruthy i = true) (hres : strTruthy res = false) :
    resolveDependencies native st (.cons n (.mk i res loc reqBy inst dbin bd od children) rest) =
      resolveDependencies native
        { warnStep st (.mk i res loc reqBy inst dbin bd od children) with
          nested_root_deps :=
            assocSet (warnStep st (.mk i res loc reqBy inst dbin bd od children)).nested_root_deps
              n (.mk i res loc reqBy inst dbin bd od children) } rest := by
  rw [resolveDependencies]
  simp [hid, hres]

theorem resolve_cons_merge (native : Bool) (st : St) (n : String)
    (i res : Option String) (loc : String) (reqBy : List String) (inst : Option String)
    (dbin : Option (List (String × String))) (bd od : Bool) (children rest : DepList)
    (r : Info) (ps : List String)
    (hid : strTruthy i = true) (hres : strTruthy res = true)
    (hbr : ¬ (getDepTreeBranch loc).length = 1)
    (hr : alookup st.resources (i.getD "") = some r)
    (hp : r.parent = some ps) :
    resolveDependencies native st (.cons n (.mk i res loc reqBy inst dbin bd od children) rest) =
      contThen native
        (resolveDependencies native
          { warnStep st (.mk i res loc reqBy inst dbin bd od children) with
            resources := assocSet st.resources (i.getD "") { r with parent := some (ps ++ reqBy) },
            reverse_location := assocSet st.reverse_location loc (i.getD ""),
            native_addons := st.native_addons ++
              (if strTruthy inst then [baseInfo res inst] else []) }
          children) rest := by
  rw [resolveDependencies]
  simp only [hid, hres, Bool.true_eq_false, if_false, warnStep_resources,
    warnStep_reverse_location, warnStep_native_addons, hr, hp, hbr, if_neg, contThen]
  by_cases hi : strTruthy inst = true <;> simp [hi, baseInfo]

theorem resolve_cons_root_dup (native : Bool) (st : St) (n : String)
    (i res : Option String) (loc : String) (reqBy : List String) (inst : Option String)
    (dbin : Option (List (String × String))) (bd od : Bool) (children rest : DepList)
    (hid : strTruthy i = true) (hres : strTruthy res = true)
    (hbr : (getDepTreeBranch loc).length = 1)
    (hdup : (alookup st.resources n).isSome = true) :
    resolveDependencies native st (.cons n (.mk i res loc reqBy inst dbin bd od children) rest) =
      .error ("error resolving root dependency: " ++ i.getD "") := by
  rw [resolveDependencies]
  simp only [hid, hres, Bool.true_eq_false, if_false, hbr, if_true, warnStep_resources, hdup]

theorem resolve_cons_root_new (native : Bool) (st : St) (n : String)
    (i res : Option String) (loc : String) (reqBy : List String) (inst : Option String)
    (dbin : Option (List (String × String))) (bd od : Bool) (children rest : DepList)
    (hid : strTruthy i = true) (hres : strTruthy res = true)
    (hbr : (getDepTreeBranch loc).length = 1)
    (hdup : alookup st.resources n = none) :
    resolveDependencies native st (.cons n (.mk i res loc reqBy inst dbin bd od children) rest) =
      contThen native
        (resolveDependencies native
          { warnStep st (.mk i res loc reqBy inst dbin bd od children) with
            resources := st.resources ++ [(n, rootInfo native res inst dbin n)],
            resources_sha256s :=
              assocSet st.resources_sha256s n (getHash (some (res.getD ""))).2,
            reverse_location := assocSet st.reverse_location loc n,
            native_addons := st.native_addons ++
              (if strTruthy inst then [rootInfo native res inst dbin n] else []),
            log := (warnStep st (.mk i res loc reqBy inst dbin bd od children)).log ++
              (getHash (some (res.getD ""))).1 }
          children) rest := by
  rw [resolveDependencies]
  simp only [hid, hres, Bool.true_eq_false, if_false, hbr, if_true, warnStep_resources,
    warnStep_reverse_location, warnStep_sha256s, warnStep_native_addons, hdup,
    Option.isSome_none, contThen]
  by_cases hi : strTruthy inst = true <;>
    by_cases hb : (native && dbin.isSome) = true <;>
      simp [hi, hb, baseInfo, rootInfo]

theorem resolve_cons_nested_new (native : Bool) (st : St) (n : String)
    (i res : Option String) (loc : String) (reqBy : List String) (inst : Option String)
    (dbin : Option (List (String × String))) (bd od : Bool) (children rest : DepList)
    (hid : strTruthy i = true) (hres : strTruthy res = true)
    (hbr : ¬ (getDepTreeBranch loc).length = 1)
    (hnew : alookup st.resources (i.getD "") = none) :
    resolveDependencies native st (.cons n (.mk i res loc reqBy inst dbin bd od children) rest) =
      contThen native
        (resolveDependencies native
          { warnStep st (.mk i res loc reqBy inst dbin bd od children) with
            resources := st.resources ++ [(i.getD "", nestedInfo res inst reqBy (i.getD ""))],
            resources_sha256s :=
              assocSet st.resources_sha256s (i.getD "") (getHash (some (res.getD ""))).2,
            reverse_location := assocSet st.reverse_location loc (i.getD ""),
            native_addons := st.native_addons ++
              (if strTruthy inst then [nestedInfo res inst reqBy (i.getD "")] else []),
            log := (warnStep st (.mk i res loc reqBy inst dbin bd od children)).log ++
              (getHash (some (res.getD ""))).1 }
          children) rest := by
  rw [resolveDependencies]
  simp only [hid, hres, Bool.true_eq_false, if_false, hbr, if_neg, warnStep_resources,
    warnStep_reverse_location, warnStep_sha256s, warnStep_native_addons, hnew, contThen]
  by_cases hi : strTruthy inst = true <;> simp [hi, baseInfo, nestedInfo]
theorem keysOf_append_single {α : Type} (l : List (String × α)) (k : String) (v : α) :
    keysOf (l ++ [(k, v)]) = keysOf l ++ [k] := by
  simp [keysOf]

theorem alookup_append_isSome {α : Type} (l1 l2 : List (String × α)) (k : String)
    (h : (alookup l1 k).isSome = true) : (alookup (l1 ++ l2) k).isSome = true := by
  rw [alookup_append]
  cases hx : alookup l1 k with
  | none => rw [hx] at h; simp at h
  | some v => simp

theorem ResInv_same (st st' : St) (h1 : st'.resources = st.resources)
    (h2 : st'.reverse_location = st.reverse_location) (hI : ResInv st) : ResInv st' := by
  obtain ⟨n1, n2, n3, n4⟩ := hI
  exact ⟨h1 ▸ n1, h1 ▸ n2, fun loc i h => h1 ▸ n3 loc i (h2 ▸ h), h1 ▸ n4⟩

theorem ResInv_merge (st st' : St) (theId loc : String) (r : Info) (ps reqBy : List String)
    (h1 : st'.resources = assocSet st.resources theId { r with parent := some (ps ++ reqBy) })
    (h2 : st'.reverse_location = assocSet st.reverse_location loc theId)
    (hr : alookup st.resources theId = some r)
    (hp : r.parent = some ps)
    (hI : ResInv st) : ResInv st' := by
  obtain ⟨n1, n2, n3, n4⟩ := hI
  have hsome : (alookup st.resources theId).isSome = true := by rw [hr]; simp
  refine ⟨?_, ?_, ?_, ?_⟩
  · rw [h1, keysOf_assocSet_present _ _ _ hsome]; exact n1
  · intro k rr hk
    rw [h1, alookup_assocSet] at hk
    by_cases he : theId = k
    · subst he
      rw [if_pos rfl] at hk
      cases hk
      exact n2 theId r hr
    · rw [if_neg he] at hk
      exact n2 k rr hk
  · intro l i hl
    rw [h2, alookup_assocSet] at hl
    rw [h1]
    by_cases he : loc = l
    · rw [if_pos he] at hl
      cases hl
      rw [alookup_assocSet, if_pos rfl]
      simp
    · rw [if_neg he] at hl
      have := n3 l i hl
      rw [alookup_assocSet]
      by_cases he2 : theId = i
      · rw [if_pos he2]; simp
      · rw [if_neg he2]; exact this
  · intro k rr hk hnest
    rw [h1, alookup_assocSet] at hk
    by_cases he : theId = k
    · rw [if_pos he] at hk
      cases hk
      simp only [Info.nested] at hnest
      have := n4 k r (he ▸ hr) (by simpa using hnest)
      rw [hp] at this
      cases this
    · rw [if_neg he] at hk
      exact n4 k rr hk hnest

theorem ResInv_new (st st' : St) (key loc : String) (info : Info)
    (h1 : st'.resources = st.resources ++ [(key, info)])
    (h2 : st'.reverse_location = assocSet st.reverse_location loc key)
    (hnew : alookup st.resources key = none)
    (hname : info.name = some key)
    (hparent : (Info.nested info).getD false = false → info.parent = none)
    (hI : ResInv st) : ResInv st' := by
  obtain ⟨n1, n2, n3, n4⟩ := hI
  have hmem : key ∉ keysOf st.resources := (alookup_none_iff _ _).mp hnew
  refine ⟨?_, ?_, ?_, ?_⟩
  · rw [h1, keysOf_append_single]
    rw [List.nodup_append]
    refine ⟨n1, List.nodup_singleton key, ?_⟩
    intro a ha hb
    simp only [List.mem_singleton] at hb
    subst hb
    exact hmem ha
  · intro k rr hk
    rw [h1, alookup_append] at hk
    cases hx : alookup st.resources k with
    | some v => rw [hx] at hk; cases hk; exact n2 k _ hx
    | none =>
        rw [hx] at hk
        simp only [alookup] at hk
        by_cases he : key = k
        · rw [if_pos he] at hk; cases hk; exact he ▸ hname
        · rw [if_neg he] at hk; cases hk
  · intro l i hl
    rw [h2, alookup_assocSet] at hl
    rw [h1]
    by_cases he : loc = l
    · rw [if_pos he] at hl
      cases hl
      rw [alookup_append, hnew]
      simp [alookup]
    · rw [if_neg he] at hl
      exact alookup_append_isSome _ _ _ (n3 l i hl)
  · intro k rr hk hnest
    rw [h1, alookup_append] at hk
    cases hx : alookup st.resources k with
    | some v => rw [hx] at hk; cases hk; exact n4 k _ hx hnest
    | none =>
        rw [hx] at hk
        simp only [alookup] at hk
        by_cases he : key = k
        · rw [if_pos he] at hk; cases hk; exact hparent hnest
        · rw [if_neg he] at hk; cases hk


theorem resolve_cons_merge_typerr (native : Bool) (st : St) (n : String)
    (i res : Option String) (loc : String) (reqBy : List String) (inst : Option String)
    (dbin : Option (List (String × String))) (bd od : Bool) (children rest : DepList)
    (r : Info)
    (hid : strTruthy i = true) (hres : strTruthy res = true)
    (hbr : ¬ (getDepTreeBranch loc).length = 1)
    (hr : alookup st.resources (i.getD "") = some r)
    (hp : r.parent = none) :
    resolveDependencies native st (.cons n (.mk i res loc reqBy inst dbin bd od children) rest) =
      .error ("TypeError: Cannot read property concat of undefined") := by
  rw [resolveDependencies]
  simp only [hid, hres, Bool.true_eq_false, if_false, warnStep_resources, hr, hp, hbr, if_neg]

theorem rootInfo_name (native : Bool) (res inst : Option String)
    (dbin : Option (List (String × String))) (n : String) :
    (rootInfo native res inst dbin n).name = some n := by
  unfold rootInfo
  simp

theorem rootInfo_nested (native : Bool) (res inst : Option String)
    (dbin : Option (List (String × String))) (n : String) :
    (rootInfo native res inst dbin n).nested = some false := by
  unfold rootInfo
  simp

theorem rootInfo_parent (native : Bool) (res inst : Option String)
    (dbin : Option (List (String × String))) (n : String) :
    (rootInfo native res inst dbin n).parent = none := by
  unfold rootInfo baseInfo
  by_cases h1 : (native && dbin.isSome) = true <;> by_cases h2 : strTruthy inst = true <;>
    simp [h1, h2]

theorem nestedInfo_name (res inst : Option String) (reqBy : List String) (theId : String) :
    (nestedInfo res inst reqBy theId).name = some theId := by
  unfold nestedInfo
  simp

theorem nestedInfo_nested (res inst : Option String) (reqBy : List String) (theId : String) :
    (nestedInfo res inst reqBy theId).nested = some true := by
  unfold nestedInfo
  simp

theorem nestedInfo_parent (res inst : Option String) (reqBy : List String) (theId : String) :
    (nestedInfo res inst reqBy theId).parent = some reqBy := by
  unfold nestedInfo
  simp

theorem resolve_ResInv_aux (native : Bool) :
    ∀ (N : Nat) (l : DepList) (st st' : St), DepList.sz l ≤ N → ResInv st →
      resolveDependencies native st l = .ok st' → ResInv st' := by
  intro N
  induction N with
  | zero =>
      intro l st st' hsz hI h
      cases l with
      | nil => rw [resolveDependencies] at h; cases h; exact hI
      | cons n d rest =>
          cases d
          simp only [DepList.sz, DepNode.sz] at hsz
          omega
  | succ N ihN =>
      intro l st st' hsz hI h
      cases l with
      | nil => rw [resolveDependencies] at h; cases h; exact hI
      | cons n d rest =>
          cases d with
          | mk i res loc reqBy inst dbin bd od children =>
          have hszc : DepList.sz children ≤ N := by
            simp only [DepList.sz, DepNode.sz] at hsz; omega
          have hszr : DepList.sz rest ≤ N := by
            simp only [DepList.sz, DepNode.sz] at hsz; omega
          by_cases hid : strTruthy i = false
          · rw [resolve_cons_skip native st n i res loc reqBy inst dbin bd od children rest hid] at h
            exact ihN rest _ st' hszr
              (ResInv_same _ _ (warnStep_resources _ _) (warnStep_reverse_location _ _) hI) h
          · have hid' : strTruthy i = true := by revert hid; cases strTruthy i <;> simp
            by_cases hres : strTruthy res = false
            · rw [resolve_cons_defer native st n i res loc reqBy inst dbin bd od children rest
                hid' hres] at h
              refine ihN rest _ st' hszr (ResInv_same _ _ ?_ ?_ hI) h
              · exact warnStep_resources _ _
              · exact warnStep_reverse_location _ _
            · have hres' : strTruthy res = true := by revert hres; cases strTruthy res <;> simp
              by_cases hbr : (getDepTreeBranch loc).length = 1
              · cases hdup : alookup st.resources n with
                | some rr =>
                    rw [resolve_cons_root_dup native st n i res loc reqBy inst dbin bd od children
                      rest hid' hres' hbr (by rw [hdup]; simp)] at h
                    exact Except.noConfusion h
                | none =>
                    rw [resolve_cons_root_new native st n i res loc reqBy inst dbin bd od children
                      rest hid' hres' hbr hdup] at h
                    simp only [contThen] at h
                    split at h
                    · exact Except.noConfusion h
                    · rename_i st2 heq
                      refine ihN rest st2 st' hszr (ihN children _ st2 hszc ?_ heq) h
                      exact ResInv_new _ _ n loc (rootInfo native res inst dbin n)
                        rfl rfl hdup (rootInfo_name _ _ _ _ _)
                        (fun _ => rootInfo_parent _ _ _ _ _) hI
              · cases hlook : alookup st.resources (i.getD "") with
                | some r =>
                    cases hpar : r.parent with
                    | none =>
                        rw [resolve_cons_merge_typerr native st n i res loc reqBy inst dbin bd od
                          children rest r hid' hres' hbr hlook hpar] at h
                        exact Except.noConfusion h
                    | some ps =>
                        rw [resolve_cons_merge native st n i res loc reqBy inst dbin bd od children
                          rest r ps hid' hres' hbr hlook hpar] at h
                        simp only [contThen] at h
                        split at h
                        · exact Except.noConfusion h
                        · rename_i st2 heq
                          refine ihN rest st2 st' hszr (ihN children _ st2 hszc ?_ heq) h
                          exact ResInv_merge _ _ (i.getD "") loc r ps reqBy
                            rfl rfl hlook hpar hI
                | none =>
                    rw [resolve_cons_nested_new native st n i res loc reqBy inst dbin bd od children
                      rest hid' hres' hbr hlook] at h
                    simp only [contThen] at h
                    split at h
                    · exact Except.noConfusion h
                    · rename_i st2 heq
                      refine ihN rest st2 st' hszr (ihN children _ st2 hszc ?_ heq) h
                      exact ResInv_new _ _ (i.getD "") loc
                        (nestedInfo res inst reqBy (i.getD ""))
                        rfl rfl hlook (nestedInfo_name _ _ _ _)
                        (fun hx => by rw [nestedInfo_nested] at hx; simp at hx) hI

theorem resolve_ResInv (native : Bool) (l : DepList) (st st' : St) (hI : ResInv st)
    (h : resolveDependencies native st l = .ok st') : ResInv st' :=
  resolve_ResInv_aux native (DepList.sz l) l st st' (Nat.le_refl _) hI h

theorem ResInv_initSt : ResInv initSt := by
  refine ⟨?_, ?_, ?_, ?_⟩ <;> simp [initSt, keysOf, alookup]

theorem alookup_assocSet_isSome {α : Type} (l : List (String × α)) (k : String) (v : α)
    (k' : String) :
    (alookup (assocSet l k v) k').isSome = true ↔ (k = k' ∨ (alookup l k').isSome = true) := by
  rw [alookup_assocSet]
  by_cases h : k = k' <;> simp [h]

theorem resolveParentLoop_ok_iff (rl : List (String × String)) (emsg : String) :
    ∀ (l : List String) (acc : List String),
      (∃ out, resolveParentLoop rl emsg acc l = .ok out) ↔
        (∀ p ∈ l, (alookup rl p).isSome = true) := by
  intro l
  induction l with
  | nil => intro acc; simp [resolveParentLoop]
  | cons p rest ih =>
      intro acc
      constructor
      · rintro ⟨out, hout⟩
        intro q hq
        rw [resolveParentLoop] at hout
        cases hx : alookup rl p with
        | none => rw [hx] at hout; exact Except.noConfusion hout
        | some rev_p =>
            rw [hx] at hout
            rcases List.mem_cons.mp hq with hq | hq
            · subst hq; rw [hx]; simp
            · exact ((ih _).mp ⟨out, hout⟩) q hq
      · intro hall
        have hp : (alookup rl p).isSome = true := hall p (List.mem_cons_self p rest)
        cases hx : alookup rl p with
        | none => rw [hx] at hp; simp at hp
        | some rev_p =>
            rw [resolveParentLoop, hx]
            exact (ih _).mpr (fun q hq => hall q (List.mem_cons_of_mem p hq))

theorem resolveParentLoop_eq_foldl (rl : List (String × String)) (emsg : String) :
    ∀ (l : List String) (acc : List String),
      (∀ p ∈ l, (alookup rl p).isSome = true) →
      resolveParentLoop rl emsg acc l =
        .ok (l.foldl (fun a p =>
          if (alookup rl p).getD "" ∈ a then a else a ++ [(alookup rl p).getD ""]) acc) := by
  intro l
  induction l with
  | nil => intro acc _; rw [resolveParentLoop]; simp
  | cons p rest ih =>
      intro acc hall
      have hp : (alookup rl p).isSome = true := hall p (List.mem_cons_self p rest)
      cases hx : alookup rl p with
      | none => rw [hx] at hp; simp at hp
      | some rev_p =>
          rw [resolveParentLoop, hx]
          show resolveParentLoop rl emsg (if rev_p ∈ acc then acc else acc ++ [rev_p]) rest = _
          rw [ih _ (fun q hq => hall q (List.mem_cons_of_mem p hq))]
          simp [hx]

theorem resolveParentLoop_acc_sub (rl : List (String × String)) (emsg : String) :
    ∀ (l acc out : List String), resolveParentLoop rl emsg acc l = .ok out →
      ∀ x ∈ acc, x ∈ out := by
  intro l
  induction l with
  | nil =>
      intro acc out h
      rw [resolveParentLoop] at h
      cases h
      exact fun x hx => hx
  | cons p rest ih =>
      intro acc out h
      rw [resolveParentLoop] at h
      cases hx : alookup rl p with
      | none => rw [hx] at h; exact Except.noConfusion h
      | some rev_p =>
          rw [hx] at h
          intro x hxa
          refine ih _ out h x ?_
          by_cases hm : rev_p ∈ acc <;> simp [hm, hxa]

theorem resolveParentLoop_mem (rl : List (String × String)) (emsg : String) :
    ∀ (l acc out : List String), resolveParentLoop rl emsg acc l = .ok out →
      ∀ x ∈ out, x ∈ acc ∨ ∃ p, p ∈ l ∧ alookup rl p = some x := by
  intro l
  induction l with
  | nil =>
      intro acc out h
      rw [resolveParentLoop] at h
      cases h
      exact fun x hx => Or.inl hx
  | cons p rest ih =>
      intro acc out h
      rw [resolveParentLoop] at h
      cases hx : alookup rl p with
      | none => rw [hx] at h; exact Except.noConfusion h
      | some rev_p =>
          rw [hx] at h
          intro x hxo
          rcases ih _ out h x hxo with hm | ⟨q, hq, hlq⟩
          · by_cases hmm : rev_p ∈ acc
            · rw [if_pos hmm] at hm; exact Or.inl hm
            · rw [if_neg hmm] at hm
              rcases List.mem_append.mp hm with hm | hm
              · exact Or.inl hm
              · simp only [List.mem_singleton] at hm
                subst hm
                exact Or.inr ⟨p, List.mem_cons_self p rest, hx⟩
          · exact Or.inr ⟨q, List.mem_cons_of_mem p hq, hlq⟩

theorem resolveParentLoop_ne_nil (rl : List (String × String)) (emsg : String)
    (l acc out : List String) (h : resolveParentLoop rl emsg acc l = .ok out)
    (hne : acc ≠ [] ∨ l ≠ []) : out ≠ [] := by
  rcases hne with hne | hne
  · intro ho
    rcases acc with _ | ⟨a, acc⟩
    · exact hne rfl
    · have := resolveParentLoop_acc_sub rl emsg l _ out h a (List.mem_cons_self a acc)
      rw [ho] at this
      cases this
  · rcases l with _ | ⟨p, rest⟩
    · exact absurd rfl hne
    · rw [resolveParentLoop] at h
      cases hx : alookup rl p with
      | none => rw [hx] at h; exact Except.noConfusion h
      | some rev_p =>
          rw [hx] at h
          intro ho
          have hmem : rev_p ∈ (if rev_p ∈ acc then acc else acc ++ [rev_p]) := by
            by_cases hm : rev_p ∈ acc <;> simp [hm]
          have := resolveParentLoop_acc_sub rl emsg rest _ out h rev_p hmem
          rw [ho] at this
          cases this

theorem dedupeKeep_map (l : List String) (f : String → String) :
    dedupeKeep (l.map f) =
      l.foldl (fun a x => if f x ∈ a then a else a ++ [f x]) [] := by
  rw [dedupeKeep, List.foldl_map]

theorem pass2Entry_not_nested (rl : List (String × String)) (n : String) (r : Info)
    (h : (Info.nested r).getD false = false) : pass2Entry rl n r = .ok r := by
  unfold pass2Entry
  simp [h]

theorem pass2Entry_nested_ok (rl : List (String × String)) (n : String) (r : Info)
    (p : List String) (r' : Info)
    (hn : (Info.nested r).getD false = true) (hp : r.parent = some p)
    (h : pass2Entry rl n r = .ok r') :
    ∃ ps, r'.parent = some ps ∧ ps ≠ [] ∧
      (∀ x ∈ ps, ∃ loc, loc ∈ p ∧ alookup rl loc = some x) ∧
      r'.url = r.url ∧ r'.nested = r.nested ∧ r'.name = r.name ∧
      r'.install = r.install ∧ r'.bin = r.bin := by
  unfold pass2Entry at h
  rw [hn] at h
  simp only [if_true] at h
  split at h
  · rename_i hnone
    rw [hp] at hnone
    exact Option.noConfusion hnone
  · rename_i p' hp'
    rw [hp] at hp'
    injection hp' with hpp
    subst hpp
    by_cases hpe : p.length = 0
    · rw [if_pos hpe] at h
      exact Except.noConfusion h
    · rw [if_neg hpe] at h
      cases hl : resolveParentLoop rl ("error normalizing nested dependency: " ++ n) [] p with
      | error e => rw [hl] at h; exact Except.noConfusion h
      | ok ps =>
        rw [hl] at h
        cases h
        refine ⟨ps, rfl, ?_, ?_, rfl, rfl, rfl, rfl, rfl⟩
        · exact resolveParentLoop_ne_nil rl _ p [] ps hl
            (Or.inr (fun hq => hpe (by rw [hq]; rfl)))
        · intro x hx
          rcases resolveParentLoop_mem rl _ p [] ps hl x hx with hm | ⟨q, hq, hlq⟩
          · cases hm
          · exact ⟨q, hq, hlq⟩

theorem pass2Entry_ok_iff (rl : List (String × String)) (n : String) (r : Info)
    (p : List String)
    (hn : (Info.nested r).getD false = true) (hp : r.parent = some p) :
    (∃ r', pass2Entry rl n r = .ok r') ↔
      (p ≠ [] ∧ ∀ loc ∈ p, (alookup rl loc).isSome = true) := by
  unfold pass2Entry
  rw [hn]
  simp only [if_true]
  rw [hp]
  show (∃ r', (if p.length = 0 then Except.error ("error normalizing nested dependency: " ++ n)
      else match resolveParentLoop rl ("error normalizing nested dependency: " ++ n) [] p with
        | Except.error e => Except.error e
        | Except.ok ps => Except.ok { r with parent := some ps }) = Except.ok r') ↔ _
  by_cases hpe : p.length = 0
  · rw [if_pos hpe]
    constructor
    · rintro ⟨r', hr'⟩; exact Except.noConfusion hr'
    · rintro ⟨hne, _⟩
      exact absurd (List.length_eq_zero.mp hpe) hne
  · rw [if_neg hpe]
    constructor
    · rintro ⟨r', hr'⟩
      refine ⟨fun hpp => hpe (by rw [hpp]; rfl), ?_⟩
      cases hl : resolveParentLoop rl ("error normalizing nested dependency: " ++ n) [] p with
      | error e => rw [hl] at hr'; exact Except.noConfusion hr'
      | ok ps => exact (resolveParentLoop_ok_iff rl _ p []).mp ⟨ps, hl⟩
    · rintro ⟨hne, hall⟩
      rw [resolveParentLoop_eq_foldl rl _ p [] hall]
      exact ⟨_, rfl⟩

theorem pass2Entry_result (rl : List (String × String)) (n : String) (r : Info)
    (p : List String) (r' : Info)
    (hn : (Info.nested r).getD false = true) (hp : r.parent = some p)
    (hall : ∀ loc ∈ p, (alookup rl loc).isSome = true)
    (h : pass2Entry rl n r = .ok r') :
    r' = { r with
           parent := some (dedupeKeep (p.map (fun loc => (alookup rl loc).getD ""))) } := by
  unfold pass2Entry at h
  rw [hn] at h
  simp only [if_true] at h
  split at h
  · rename_i hnone
    rw [hp] at hnone
    exact Option.noConfusion hnone
  · rename_i p' hp'
    rw [hp] at hp'
    injection hp' with hpp
    subst hpp
    by_cases hpe : p.length = 0
    · rw [if_pos hpe] at h
      exact Except.noConfusion h
    · rw [if_neg hpe] at h
      rw [resolveParentLoop_eq_foldl rl _ p [] hall] at h
      cases h
      rw [dedupeKeep_map]

theorem pass2Map_keys (rl : List (String × String)) :
    ∀ (rs rs' : List (String × Info)), pass2Map rl rs = .ok rs' → keysOf rs' = keysOf rs := by
  intro rs
  induction rs with
  | nil =>
      intro rs' h
      rw [pass2Map] at h
      cases h
      rfl
  | cons p rest ih =>
      obtain ⟨n, r⟩ := p
      intro rs' h
      rw [pass2Map] at h
      cases he : pass2Entry rl n r with
      | error e => rw [he] at h; exact Except.noConfusion h
      | ok r'' =>
          rw [he] at h
          cases hm : pass2Map rl rest with
          | error e => rw [hm] at h; exact Except.noConfusion h
          | ok rest' =>
              rw [hm] at h
              cases h
              simp only [keysOf, List.map_cons]
              have := ih rest' hm
              rw [keysOf] at this
              rw [this, keysOf]

theorem pass2Map_lookup (rl : List (String × String)) :
    ∀ (rs rs' : List (String × Info)), pass2Map rl rs = .ok rs' → ∀ k,
      (alookup rs k = none ∧ alookup rs' k = none) ∨
      ∃ r r', alookup rs k = some r ∧ alookup rs' k = some r' ∧
        pass2Entry rl k r = .ok r' := by
  intro rs
  induction rs with
  | nil =>
      intro rs' h k
      rw [pass2Map] at h
      cases h
      exact Or.inl ⟨rfl, rfl⟩
  | cons p rest ih =>
      obtain ⟨n, r⟩ := p
      intro rs' h k
      rw [pass2Map] at h
      cases he : pass2Entry rl n r with
      | error e => rw [he] at h; exact Except.noConfusion h
      | ok r'' =>
          rw [he] at h
          cases hm : pass2Map rl rest with
          | error e => rw [hm] at h; exact Except.noConfusion h
          | ok rest' =>
              rw [hm] at h
              cases h
              by_cases hk : n = k
              · subst hk
                exact Or.inr ⟨r, r'', by rw [alookup, if_pos rfl],
                  by rw [alookup, if_pos rfl], he⟩
              · rcases ih rest' hm k with ⟨h1, h2⟩ | ⟨rr, rr', h1, h2, h3⟩
                · exact Or.inl ⟨by rw [alookup, if_neg hk]; exact h1,
                    by rw [alookup, if_neg hk]; exact h2⟩
                · exact Or.inr ⟨rr, rr', by rw [alookup, if_neg hk]; exact h1,
                    by rw [alookup, if_neg hk]; exact h2, h3⟩


theorem ResInv_NormInv (st : St) (hI : ResInv st) : NormInv st := by
  obtain ⟨_, _, n3, n4⟩ := hI
  refine ⟨n3, ?_⟩
  intro k r hk hn ps hp x hx
  rw [n4 k r hk hn] at hp
  exact Option.noConfusion hp

theorem NormInv_pass1_step (st st1 : St) (n : String) (r r0 : Info) (ps : List String)
    (loc0 : String)
    (h1 : st1.resources = assocSet st.resources n { r0 with parent := some ps })
    (h2 : st1.reverse_location = assocSet st.reverse_location loc0 n)
    (hr : alookup st.resources n = some r)
    (hr0 : r0 = if r.parent.isNone then { r with parent := some [] } else r)
    (hps : ∀ x ∈ ps, x ∈ (Info.parent r0).getD [] ∨
      ∃ q, alookup (assocSet st.reverse_location loc0 n) q = some x)
    (hI : NormInv st) : NormInv st1 ∧ keysOf st1.resources = keysOf st.resources := by
  obtain ⟨i1, i2⟩ := hI
  have hrsome : (alookup st.resources n).isSome = true := by rw [hr]; rfl
  have hpres : ∀ x, (alookup st.resources x).isSome = true →
      (alookup st1.resources x).isSome = true := by
    intro x hx
    rw [h1]
    exact (alookup_assocSet_isSome _ _ _ _).mpr (Or.inr hx)
  have hnpres : (alookup st1.resources n).isSome = true := by
    rw [h1]
    exact (alookup_assocSet_isSome _ _ _ _).mpr (Or.inl rfl)
  have hrlval : ∀ q x, alookup (assocSet st.reverse_location loc0 n) q = some x →
      (alookup st1.resources x).isSome = true := by
    intro q x hq
    rw [alookup_assocSet] at hq
    by_cases he : loc0 = q
    · rw [if_pos he] at hq
      cases hq
      exact hnpres
    · rw [if_neg he] at hq
      exact hpres x (i1 q x hq)
  have hr0nested : Info.nested r0 = Info.nested r := by
    rw [hr0]
    by_cases hc : r.parent.isNone = true <;> simp [hc]
  refine ⟨⟨?_, ?_⟩, by rw [h1]; exact keysOf_assocSet_present _ _ _ hrsome⟩
  · intro loc i hloc
    rw [h2] at hloc
    exact hrlval loc i hloc
  · intro k' r'' hk'' hn'' ps'' hp'' x hx
    rw [h1, alookup_assocSet] at hk''
    by_cases he : n = k'
    · rw [if_pos he] at hk''
      cases hk''
      have hps'' : ps'' = ps := by
        have : some ps = some ps'' := hp''
        injection this with hh
        exact hh.symm
      rw [hps''] at hx
      rcases hps x hx with hm | ⟨q, hq⟩
      · -- from the initial accumulator: r0.parent
        cases hpr : r.parent with
        | none =>
            rw [hr0] at hm
            simp [hpr] at hm
        | some ps0 =>
            have hm0 : x ∈ ps0 := by
              rw [hr0] at hm
              simpa [hpr] using hm
            have hnr : (Info.nested r).getD false = false := by
              have : Info.nested ({ r0 with parent := some ps } : Info) = Info.nested r0 := rfl
              rw [this, hr0nested] at hn''
              exact hn''
            exact hpres x (i2 n r hr hnr ps0 hpr x hm0)
      · exact hrlval q x hq
    · rw [if_neg he] at hk''
      exact hpres x (i2 k' r'' hk'' hn'' ps'' hp'' x hx)

theorem pass1Entry_inv (st st1 : St) (n : String) (d : DepNode)
    (h : pass1Entry st n d = .ok st1) (hI : NormInv st) :
    NormInv st1 ∧ keysOf st1.resources = keysOf st.resources := by
  unfold pass1Entry at h
  cases hr : alookup st.resources n with
  | none => rw [hr] at h; exact Except.noConfusion h
  | some r =>
      rw [hr] at h
      replace h : (match resolveParentLoop (assocSet st.reverse_location (DepNode.location d) n)
          ("error normalizing nested root dependency: " ++ idStr d)
          ((Info.parent (if r.parent.isNone then { r with parent := some [] } else r)).getD [])
          (DepNode.requiredBy d) with
        | Except.error e => (Except.error e : Except String St)
        | Except.ok ps =>
            Except.ok { st with
              reverse_location := assocSet st.reverse_location (DepNode.location d) n,
              resources := assocSet st.resources n
                { (if r.parent.isNone then { r with parent := some [] } else r) with
                  parent := some ps } }) = .ok st1 := h
      cases hl : resolveParentLoop (assocSet st.reverse_location (DepNode.location d) n)
          ("error normalizing nested root dependency: " ++ idStr d)
          ((Info.parent (if r.parent.isNone then { r with parent := some [] } else r)).getD [])
          (DepNode.requiredBy d) with
      | error e => rw [hl] at h; exact Except.noConfusion h
      | ok ps =>
          rw [hl] at h
          cases h
          refine NormInv_pass1_step st _ n r
            (if r.parent.isNone then { r with parent := some [] } else r) ps
            (DepNode.location d) rfl rfl hr rfl ?_ hI
          intro x hx
          rcases resolveParentLoop_mem _ _ _ _ _ hl x hx with hm | ⟨q, _, hlq⟩
          · exact Or.inl hm
          · exact Or.inr ⟨q, hlq⟩

theorem pass1_inv :
    ∀ (lst : List (String × DepNode)) (st st1 : St), pass1 st lst = .ok st1 →
      NormInv st → NormInv st1 ∧ keysOf st1.resources = keysOf st.resources := by
  intro lst
  induction lst with
  | nil =>
      intro st st1 h hI
      rw [pass1] at h
      cases h
      exact ⟨hI, rfl⟩
  | cons p rest ih =>
      obtain ⟨n, d⟩ := p
      intro st st1 h hI
      rw [pass1] at h
      cases he : pass1Entry st n d with
      | error e => rw [he] at h; exact Except.noConfusion h
      | ok stm =>
          rw [he] at h
          obtain ⟨hI1, hk1⟩ := pass1Entry_inv st stm n d he hI
          obtain ⟨hI2, hk2⟩ := ih stm st1 h hI1
          exact ⟨hI2, hk2.trans hk1⟩

theorem pass2Entry_nested_noparent (rl : List (String × String)) (n : String) (r : Info)
    (hn : (Info.nested r).getD false = true) (hp : r.parent = none) :
    pass2Entry rl n r = .error "TypeError: Cannot read property length of undefined" := by
  unfold pass2Entry
  rw [hn]
  simp only [if_true]
  rw [hp]

theorem isSome_of_keysOf_eq {α β : Type} (l1 : List (String × α)) (l2 : List (String × β))
    (hk : keysOf l2 = keysOf l1) (x : String)
    (h : (alookup l1 x).isSome = true) : (alookup l2 x).isSome = true := by
  rw [alookup_isSome_iff] at *
  rw [hk]
  exact h

theorem normalize_parents (st st2 : St) (hI : ResInv st)
    (h : normalizeDepParents st = .ok st2) :
    (∀ k r, alookup st2.resources k = some r → (Info.nested r).getD false = true →
      ∃ ps, r.parent = some ps ∧ ps ≠ [] ∧
        ∀ x ∈ ps, (alookup st2.resources x).isSome = true) ∧
    (∀ k r, alookup st2.resources k = some r → ∀ ps, r.parent = some ps →
      ∀ x ∈ ps, (alookup st2.resources x).isSome = true) := by
  unfold normalizeDepParents at h
  cases h1 : pass1 st st.nested_root_deps with
  | error e => rw [h1] at h; exact Except.noConfusion h
  | ok st1 =>
      rw [h1] at h
      replace h : (match pass2Map st1.reverse_location st1.resources with
        | Except.error e => (Except.error e : Except String St)
        | Except.ok rs => Except.ok { st1 with resources := rs }) = Except.ok st2 := h
      cases h2 : pass2Map st1.reverse_location st1.resources with
      | error e => rw [h2] at h; exact Except.noConfusion h
      | ok rs =>
          rw [h2] at h
          cases h
          obtain ⟨hN1, _⟩ := pass1_inv st.nested_root_deps st st1 h1 (ResInv_NormInv st hI)
          obtain ⟨hrl, hpar⟩ := hN1
          have hkeys : keysOf rs = keysOf st1.resources := pass2Map_keys _ _ _ h2
          have htrans : ∀ x, (alookup st1.resources x).isSome = true →
              (alookup rs x).isSome = true :=
            fun x hx => isSome_of_keysOf_eq _ _ hkeys x hx
          constructor
          · intro k r hk hn
            rcases pass2Map_lookup _ _ _ h2 k with ⟨_, hnone⟩ | ⟨r0, r', hr0, hr', he⟩
            · rw [hnone] at hk
              exact Option.noConfusion hk
            · rw [hr'] at hk
              injection hk with hk
              subst hk
              cases hn0 : (Info.nested r0).getD false with
              | false =>
                  rw [pass2Entry_not_nested _ _ _ hn0] at he
                  injection he with he
                  subst he
                  rw [hn0] at hn
                  exact Bool.noConfusion hn
              | true =>
                  cases hp0 : r0.parent with
                  | none =>
                      rw [pass2Entry_nested_noparent _ _ _ hn0 hp0] at he
                      exact Except.noConfusion he
                  | some p =>
                      obtain ⟨ps, hps, hne, hmem, _⟩ :=
                        pass2Entry_nested_ok _ _ _ _ _ hn0 hp0 he
                      refine ⟨ps, hps, hne, ?_⟩
                      intro x hx
                      obtain ⟨loc, _, hloc⟩ := hmem x hx
                      exact htrans x (hrl loc x hloc)
          · intro k r hk ps hps x hx
            rcases pass2Map_lookup _ _ _ h2 k with ⟨_, hnone⟩ | ⟨r0, r', hr0, hr', he⟩
            · rw [hnone] at hk
              exact Option.noConfusion hk
            · rw [hr'] at hk
              injection hk with hk
              subst hk
              cases hn0 : (Info.nested r0).getD false with
              | false =>
                  rw [pass2Entry_not_nested _ _ _ hn0] at he
                  injection he with he
                  subst he
                  exact htrans x (hpar k r0 hr0 hn0 ps hps x hx)
              | true =>
                  cases hp0 : r0.parent with
                  | none =>
                      rw [pass2Entry_nested_noparent _ _ _ hn0 hp0] at he
                      exact Except.noConfusion he
                  | some p =>
                      obtain ⟨ps', hps', _, hmem, _⟩ :=
                        pass2Entry_nested_ok _ _ _ _ _ hn0 hp0 he
                      rw [hps'] at hps
                      injection hps with hpseq
                      subst hpseq
                      obtain ⟨loc, _, hloc⟩ := hmem x hx
                      exact htrans x (hrl loc x hloc)

theorem baseInfo_install (res inst : Option String) (hin : strTruthy inst = true) :
    (baseInfo res inst).install = some (rewriteInstall (inst.getD "")) := by
  unfold baseInfo
  rw [hin]
  simp

theorem baseInfo_name (res inst : Option String) : (baseInfo res inst).name = none := by
  unfold baseInfo
  by_cases h : strTruthy inst = true <;> simp [h]

theorem rootInfo_install (native : Bool) (res inst : Option String)
    (dbin : Option (List (String × String))) (n : String) (hin : strTruthy inst = true) :
    (rootInfo native res inst dbin n).install = some (rewriteInstall (inst.getD "")) := by
  unfold rootInfo
  by_cases h : (native && dbin.isSome) = true <;>
    simp [h, baseInfo_install res inst hin]

theorem nestedInfo_install (res inst : Option String) (reqBy : List String) (theId : String)
    (hin : strTruthy inst = true) :
    (nestedInfo res inst reqBy theId).install = some (rewriteInstall (inst.getD "")) := by
  unfold nestedInfo
  simp [baseInfo_install res inst hin]

/-! ## Claims -/

/-- C1: when a nested node's composite identifier already has a
ResourceRecord (a later encounter), the resolver creates no new record — the
key list of the flat mapping is unchanged, so exactly one record exists for
that identifier — it appends the node's raw requirer locations to the
existing record's pending-parent list and points the location index entry
for this location at the existing identifier; and on the spec's example tree
(root-level A and root-level C each depending on B at different nested
locations) the single record for B\@1.0.0 ends, after normalization, with
parents ["A", "C"] in order of first encounter. -/
theorem C1_merge_one_record :
    (∀ (native : Bool) (st : St) (n : String) (i res : Option String) (loc : String)
        (reqBy : List String) (inst : Option String) (dbin : Option (List (String × String)))
        (bd od : Bool) (children rest : DepList) (r : Info) (ps : List String),
        strTruthy i = true → strTruthy res = true →
        ¬ (getDepTreeBranch loc).length = 1 →
        alookup st.resources (i.getD "") = some r →
        r.parent = some ps →
        ∃ st1,
          resolveDependencies native st
              (.cons n (.mk i res loc reqBy inst dbin bd od children) rest) =
            contThen native (resolveDependencies native st1 children) rest ∧
          keysOf st1.resources = keysOf st.resources ∧
          alookup st1.resources (i.getD "") = some { r with parent := some (ps ++ reqBy) } ∧
          alookup st1.reverse_location loc = some (i.getD "")) ∧
    (exOk (runResolve false c1Tree) = true ∧
      (keysOf (resourcesOf (runResolve false c1Tree))).count "B@1.0.0" = 1 ∧
      (alookup (resourcesOf (runResolve false c1Tree)) "B@1.0.0").map Info.parent =
        some (some ["A", "C"])) := by
  constructor
  · intro native st n i res loc reqBy inst dbin bd od children rest r ps hid hres hbr hr hp
    refine ⟨_, resolve_cons_merge native st n i res loc reqBy inst dbin bd od children rest
      r ps hid hres hbr hr hp, ?_, ?_, ?_⟩
    · show keysOf (assocSet st.resources (i.getD "") _) = keysOf st.resources
      exact keysOf_assocSet_present _ _ _ (by rw [hr]; rfl)
    · show alookup (assocSet st.resources (i.getD "") _) (i.getD "") = _
      rw [alookup_assocSet, if_pos rfl]
    · show alookup (assocSet st.reverse_location loc (i.getD "")) loc = _
      rw [alookup_assocSet, if_pos rfl]
  · exact ⟨rfl, rfl, rfl⟩

/-- C1 witness: the merge-step characterization applied at a concrete state
holding a record for B\@1.0.0 with pending parent location /A, processing a
second occurrence of B at /C/node\_modules/B. -/
theorem C1_merge_one_record_witness :
    ∃ st1,
      resolveDependencies false
          { initSt with resources := [("B@1.0.0",
              { url := "https://r/b", nested := some true, name := some "B@1.0.0",
                parent := some ["/A"] })] }
          (.cons "B" (.mk (some "B@1.0.0") (some "https://r/b") "/C/node_modules/B" ["/C"]
            none none false false .nil) .nil) =
        contThen false (resolveDependencies false st1 .nil) .nil ∧
      keysOf st1.resources = keysOf [("B@1.0.0",
        ({ url := "https://r/b", nested := some true, name := some "B@1.0.0",
           parent := some ["/A"] } : Info))] ∧
      alookup st1.resources "B@1.0.0" =
        some { url := "https://r/b", nested := some true, name := some "B@1.0.0",
               parent := some (["/A"] ++ ["/C"]) } ∧
      alookup st1.reverse_location "/C/node_modules/B" = some "B@1.0.0" :=
  C1_merge_one_record.1 false
    { initSt with resources := [("B@1.0.0",
        { url := "https://r/b", nested := some true, name := some "B@1.0.0",
          parent := some ["/A"] })] }
    "B" (some "B@1.0.0") (some "https://r/b") "/C/node_modules/B" ["/C"] none none false false
    .nil .nil
    { url := "https://r/b", nested := some true, name := some "B@1.0.0", parent := some ["/A"] }
    ["/A"] (by rfl) (by rfl) (by decide) (by rfl) (by rfl)

/-- C2 counterexample: on a tree whose single root node X has an identifier
but no resolved URL and a fully resolved nested child Y, the resolver
records X as a deferred root dependency but never classifies Y — the flat
resource mapping stays empty, refuting the claim that the children of such
a node are classified and can appear in the flat mapping. -/
theorem C2_no_recursion_counterexample :
    exOk (resolveDependencies false initSt c2Tree) = true ∧
    (alookup (deferredOf (resolveDependencies false initSt c2Tree)) "X").isSome = true ∧
    alookup (resourcesOf (resolveDependencies false initSt c2Tree)) "Y@1.0.0" = none ∧
    resourcesOf (resolveDependencies false initSt c2Tree) = [] :=
  ⟨rfl, rfl, rfl, rfl⟩

/-- C2 (amended): a node with a truthy identifier but no resolved URL is
recorded as a DeferredRootDependency keyed by its mapping name and the loop
moves on to the remaining siblings without recursing into the node's child
dependency mapping (its subtree is dropped); a node with no identifier at
all likewise stops recursion into its subtree. -/
theorem C2_defer_skips_children :
    (∀ (native : Bool) (st : St) (n : String) (i res : Option String) (loc : String)
        (reqBy : List String) (inst : Option String) (dbin : Option (List (String × String)))
        (bd od : Bool) (children rest : DepList),
        strTruthy i = true → strTruthy res = false →
        resolveDependencies native st
            (.cons n (.mk i res loc reqBy inst dbin bd od children) rest) =
          resolveDependencies native
            { warnStep st (.mk i res loc reqBy inst dbin bd od children) with
              nested_root_deps :=
                assocSet (warnStep st (.mk i res loc reqBy inst dbin bd od children)).nested_root_deps
                  n (.mk i res loc reqBy inst dbin bd od children) } rest) ∧
    (∀ (native : Bool) (st : St) (n : String) (i res : Option String) (loc : String)
        (reqBy : List String) (inst : Option String) (dbin : Option (List (String × String)))
        (bd od : Bool) (children rest : DepList),
        strTruthy i = false →
        resolveDependencies native st
            (.cons n (.mk i res loc reqBy inst dbin bd od children) rest) =
          resolveDependencies native
            (warnStep st (.mk i res loc reqBy inst dbin bd od children)) rest) := by
  constructor
  · intro native st n i res loc reqBy inst dbin bd od children rest hid hres
    exact resolve_cons_defer native st n i res loc reqBy inst dbin bd od children rest hid hres
  · intro native st n i res loc reqBy inst dbin bd od children rest hid
    exact resolve_cons_skip native st n i res loc reqBy inst dbin bd od children rest hid

/-- C2 witness: the amended statement applied to the deferred root X of the
counterexample tree (children dropped, X recorded), and to a node without an
identifier. -/
theorem C2_defer_skips_children_witness :
    (resolveDependencies false initSt c2Tree =
      resolveDependencies false
        { warnStep initSt c2X with
          nested_root_deps := assocSet (warnStep initSt c2X).nested_root_deps "X" c2X }
        .nil) ∧
    (resolveDependencies false initSt
        (.cons "Z" (.mk none none "/Z" [] none none false false .nil) .nil) =
      resolveDependencies false
        (warnStep initSt (.mk none none "/Z" [] none none false false .nil)) .nil) :=
  ⟨C2_defer_skips_children.1 false initSt "X" (some "X@1.0.0") none "/X" ["/"] none none
      false false (.cons "Y" c2Y .nil) .nil (by rfl) (by rfl),
   C2_defer_skips_children.2 false initSt "Z" none none "/Z" [] none none false false
      .nil .nil (by rfl)⟩

/-- C3: for a nested record with pending-parent list `p`, normalization pass
2 on that record succeeds exactly when `p` is non-empty and every location in
`p` is present in the LocationIndex — i.e. it raises a fatal error iff the
pending list is empty or some location has no index entry — and on success
the record is unchanged except that its parent list becomes the looked-up
identifiers deduplicated in first-seen order. -/
theorem C3_pass2_resolution (rl : List (String × String)) (n : String) (r : Info)
    (p : List String) (hn : Info.nested r = some true) (hp : r.parent = some p) :
    ((∃ r', pass2Entry rl n r = .ok r') ↔
      (p ≠ [] ∧ ∀ loc ∈ p, (alookup rl loc).isSome = true)) ∧
    (∀ r', pass2Entry rl n r = .ok r' →
      r' = { r with
             parent := some (dedupeKeep (p.map (fun loc => (alookup rl loc).getD ""))) }) := by
  have hn' : (Info.nested r).getD false = true := by rw [hn]; rfl
  constructor
  · exact pass2Entry_ok_iff rl n r p hn' hp
  · intro r' h
    have hall : ∀ loc ∈ p, (alookup rl loc).isSome = true :=
      ((pass2Entry_ok_iff rl n r p hn' hp).mp ⟨r', h⟩).2
    exact pass2Entry_result rl n r p r' hn' hp hall h

/-- C3 witness: pass 2 on a nested record with pending locations
[/A, /C, /A] over an index mapping them to A and C yields parents [A, C]
(deduplicated, first-seen order). -/
theorem C3_pass2_resolution_witness :
    ((∃ r', pass2Entry [("/A", "A"), ("/C", "C")] "B@1.0.0"
        { url := "u", nested := some true, parent := some ["/A", "/C", "/A"] } = .ok r') ↔
      ((["/A", "/C", "/A"] : List String) ≠ [] ∧
        ∀ loc ∈ (["/A", "/C", "/A"] : List String),
          (alookup [("/A", "A"), ("/C", "C")] loc).isSome = true)) ∧
    (∀ r', pass2Entry [("/A", "A"), ("/C", "C")] "B@1.0.0"
        { url := "u", nested := some true, parent := some ["/A", "/C", "/A"] } = .ok r' →
      r' = { url := "u", nested := some true,
             parent := some (dedupeKeep ((["/A", "/C", "/A"] : List String).map
               (fun loc => (alookup [("/A", "A"), ("/C", "C")] loc).getD ""))) }) :=
  C3_pass2_resolution [("/A", "A"), ("/C", "C")] "B@1.0.0"
    { url := "u", nested := some true, parent := some ["/A", "/C", "/A"] }
    ["/A", "/C", "/A"] (by rfl) (by rfl)

/-- C4 counterexample: on a tree with two root-level nodes named A, the run
does raise the structural error, but the formula preamble (8 writes: require,
class, desc, homepage, url, sha256, depends\_on, blank line) has already been
written when resolution starts — output is not empty, refuting "aborts
before any output is produced (no partial output)". -/
theorem C4_duplicate_root_counterexample :
    c4Out.2 = some ("error resolving root dependency: " ++ "A@2.0.0") ∧
    c4Out.1 ≠ [] ∧ c4Out.1.length = 8 := by
  refine ⟨rfl, by decide, rfl⟩

/-- C4 (amended): encountering a resolved root-level node whose bare name
already has a ResourceRecord throws the fatal duplicate-root error, and when
resolution throws, the main chain stops with exactly the already-written
formula preamble (header and depends-on writes) as output — no resource
entry or install section is emitted, but the preamble constitutes partial
output on the stream. -/
theorem C4_duplicate_root_aborts :
    (∀ (native : Bool) (st : St) (n : String) (i res : Option String) (loc : String)
        (reqBy : List String) (inst : Option String) (dbin : Option (List (String × String)))
        (bd od : Bool) (children rest : DepList),
        strTruthy i = true → strTruthy res = true →
        (getDepTreeBranch loc).length = 1 →
        (alookup st.resources n).isSome = true →
        resolveDependencies native st
            (.cons n (.mk i res loc reqBy inst dbin bd od children) rest) =
          .error ("error resolving root dependency: " ++ i.getD "")) ∧
    (∀ (m : String) (native : Bool) (data : TopData) (hash : String → Option String)
        (pn : String → String) (e : String),
        resolveDependencies native initSt data.dependencies = .error e →
        mainChain m native data hash pn =
          (headerWrites m data hash ++ dependsWrites native, some e)) := by
  constructor
  · intro native st n i res loc reqBy inst dbin bd od children rest hid hres hbr hdup
    exact resolve_cons_root_dup native st n i res loc reqBy inst dbin bd od children rest
      hid hres hbr hdup
  · intro m native data hash pn e herr
    unfold mainChain
    rw [herr]

/-- C4 witness: the duplicate-root error raised at a state already holding a
record for A, and the main chain on the counterexample data stopping with
the preamble as its only output. -/
theorem C4_duplicate_root_aborts_witness :
    (resolveDependencies false
        { initSt with resources := [("A", { url := "https://r/a" })] }
        (.cons "A" (.mk (some "A@2.0.0") (some "https://r/a2") "/A" ["/"] none none false false
          .nil) .nil) =
      .error ("error resolving root dependency: " ++ (some "A@2.0.0").getD "")) ∧
    (mainChain "foo" false c4Data (fun _ => none) (fun s => s) =
      (headerWrites "foo" c4Data (fun _ => none) ++ dependsWrites false,
       some ("error resolving root dependency: " ++ "A@2.0.0"))) :=
  ⟨C4_duplicate_root_aborts.1 false
      { initSt with resources := [("A", { url := "https://r/a" })] }
      "A" (some "A@2.0.0") (some "https://r/a2") "/A" ["/"] none none false false .nil .nil
      (by rfl) (by rfl) (by rfl) (by rfl),
   C4_duplicate_root_aborts.2 "foo" false c4Data (fun _ => none) (fun s => s)
      ("error resolving root dependency: " ++ "A@2.0.0") (by rfl)⟩

/-- C5: on any tree the resolver accepts, the keys of the flat resource
mapping are mutually distinct (exactly one record per key: root-level keyed
by bare name, nested by composite identifier) and every record's name field
equals its key; and on a tree containing a root-level B and a nested
B\@1.0.0 sharing the bare package name, the two remain distinct entries. -/
theorem C5_unique_keys :
    (∀ (native : Bool) (deps : DepList) (st' : St),
        resolveDependencies native initSt deps = .ok st' →
        (keysOf st'.resources).Nodup ∧
        (∀ k r, alookup st'.resources k = some r → r.name = some k)) ∧
    (exOk (resolveDependencies false initSt c5Tree) = true ∧
      (alookup (resourcesOf (resolveDependencies false initSt c5Tree)) "B").map Info.nested =
        some (some false) ∧
      (alookup (resourcesOf (resolveDependencies false initSt c5Tree)) "B@1.0.0").map
          Info.nested = some (some true)) := by
  constructor
  · intro native deps st' h
    obtain ⟨n1, n2, _, _⟩ := resolve_ResInv native deps initSt st' ResInv_initSt h
    exact ⟨n1, n2⟩
  · exact ⟨rfl, rfl, rfl⟩

/-- C5 witness: key distinctness and name-key agreement on the concrete
root-B / nested-B\@1.0.0 tree. -/
theorem C5_unique_keys_witness :
    (keysOf (stOf (resolveDependencies false initSt c5Tree)).resources).Nodup ∧
    (∀ k r, alookup (stOf (resolveDependencies false initSt c5Tree)).resources k = some r →
      r.name = some k) :=
  C5_unique_keys.1 false c5Tree (stOf (resolveDependencies false initSt c5Tree)) (by rfl)

/-- C6: on any tree that resolves and normalizes without a fatal error,
every nested ResourceRecord ends with a non-empty parents list, and every
element of every record's parents list is a key present in the flat resource
mapping (referential closure). -/
theorem C6_referential_closure (native : Bool) (deps : DepList) (st st2 : St)
    (h1 : resolveDependencies native initSt deps = .ok st)
    (h2 : normalizeDepParents st = .ok st2) :
    (∀ k r, alookup st2.resources k = some r → Info.nested r = some true →
      ∃ ps, r.parent = some ps ∧ ps ≠ [] ∧
        ∀ x ∈ ps, (alookup st2.resources x).isSome = true) ∧
    (∀ k r, alookup st2.resources k = some r → ∀ ps, r.parent = some ps →
      ∀ x ∈ ps, (alookup st2.resources x).isSome = true) := by
  have hI : ResInv st := resolve_ResInv native deps initSt st ResInv_initSt h1
  obtain ⟨hA, hB⟩ := normalize_parents st st2 hI h2
  refine ⟨?_, hB⟩
  intro k r hk hn
  exact hA k r hk (by rw [hn]; rfl)

/-- C6 witness: referential closure on the concrete two-root merge tree. -/
theorem C6_referential_closure_witness :
    (∀ k r, alookup (stOf (normalizeDepParents
          (stOf (resolveDependencies false initSt c1Tree)))).resources k = some r →
        Info.nested r = some true →
      ∃ ps, r.parent = some ps ∧ ps ≠ [] ∧
        ∀ x ∈ ps, (alookup (stOf (normalizeDepParents
          (stOf (resolveDependencies false initSt c1Tree)))).resources x).isSome = true) ∧
    (∀ k r, alookup (stOf (normalizeDepParents
          (stOf (resolveDependencies false initSt c1Tree)))).resources k = some r →
        ∀ ps, r.parent = some ps →
      ∀ x ∈ ps, (alookup (stOf (normalizeDepParents
          (stOf (resolveDependencies false initSt c1Tree)))).resources x).isSome = true) :=
  C6_referential_closure false c1Tree (stOf (resolveDependencies false initSt c1Tree))
    (stOf (normalizeDepParents (stOf (resolveDependencies false initSt c1Tree))))
    (by rfl) (by rfl)

/-- C7 counterexample: a duplicated nested dependency whose both occurrences
declare the install script `prebuild`; the second (merge) occurrence is
pushed onto the native-addon list with the rewritten command but with no
name, refuting the claim that every such entry carries the node's resource
identifier. -/
theorem C7_addon_counterexample :
    exOk (resolveDependencies false initSt c7Tree) = true ∧
    (nativeAddonsOf (resolveDependencies false initSt c7Tree)).length = 2 ∧
    ((nativeAddonsOf (resolveDependencies false initSt c7Tree)).get? 0).map Info.name =
      some (some "B@1.0.0") ∧
    ((nativeAddonsOf (resolveDependencies false initSt c7Tree)).get? 1).map Info.name =
      some none ∧
    ((nativeAddonsOf (resolveDependencies false initSt c7Tree)).get? 1).map Info.install =
      some (some "prebuild --compile") :=
  ⟨rfl, rfl, rfl, rfl, rfl⟩

/-- C7 (amended): for every resolved node declaring a (non-empty) install
script, the script is rewritten by replacing the first `node-pre-gyp`
occurrence with `node-pre-gyp --build-from-source` and the first `prebuild`
occurrence with `prebuild --compile`, and one entry holding the rewritten
command is appended to the native-addon list; that entry carries the node's
resource identifier when the node creates a new record (root-level creation
or first nested encounter) but carries no identifier in the merge case. -/
theorem C7_native_addon_entries :
    (∀ (native : Bool) (st : St) (n : String) (i res : Option String) (loc : String)
        (reqBy : List String) (inst : Option String) (dbin : Option (List (String × String)))
        (bd od : Bool) (children rest : DepList),
        strTruthy i = true → strTruthy res = true → strTruthy inst = true →
        (getDepTreeBranch loc).length = 1 →
        alookup st.resources n = none →
        ∃ st1,
          resolveDependencies native st
              (.cons n (.mk i res loc reqBy inst dbin bd od children) rest) =
            contThen native (resolveDependencies native st1 children) rest ∧
          st1.native_addons = st.native_addons ++ [rootInfo native res inst dbin n] ∧
          (rootInfo native res inst dbin n).install = some (rewriteInstall (inst.getD "")) ∧
          (rootInfo native res inst dbin n).name = some n) ∧
    (∀ (native : Bool) (st : St) (n : String) (i res : Option String) (loc : String)
        (reqBy : List String) (inst : Option String) (dbin : Option (List (String × String)))
        (bd od : Bool) (children rest : DepList),
        strTruthy i = true → strTruthy res = true → strTruthy inst = true →
        ¬ (getDepTreeBranch loc).length = 1 →
        alookup st.resources (i.getD "") = none →
        ∃ st1,
          resolveDependencies native st
              (.cons n (.mk i res loc reqBy inst dbin bd od children) rest) =
            contThen native (resolveDependencies native st1 children) rest ∧
          st1.native_addons = st.native_addons ++ [nestedInfo res inst reqBy (i.getD "")] ∧
          (nestedInfo res inst reqBy (i.getD "")).install =
            some (rewriteInstall (inst.getD "")) ∧
          (nestedInfo res inst reqBy (i.getD "")).name = some (i.getD "")) ∧
    (∀ (native : Bool) (st : St) (n : String) (i res : Option String) (loc : String)
        (reqBy : List String) (inst : Option String) (dbin : Option (List (String × String)))
        (bd od : Bool) (children rest : DepList) (r : Info) (ps : List String),
        strTruthy i = true → strTruthy res = true → strTruthy inst = true →
        ¬ (getDepTreeBranch loc).length = 1 →
        alookup st.resources (i.getD "") = some r →
        r.parent = some ps →
        ∃ st1,
          resolveDependencies native st
              (.cons n (.mk i res loc reqBy inst dbin bd od children) rest) =
            contThen native (resolveDependencies native st1 children) rest ∧
          st1.native_addons = st.native_addons ++ [baseInfo res inst] ∧
          (baseInfo res inst).install = some (rewriteInstall (inst.getD "")) ∧
          (baseInfo res inst).name = none) ∧
    (rewriteInstall "node-pre-gyp install" = "node-pre-gyp --build-from-source install" ∧
     rewriteInstall "prebuild" = "prebuild --compile") := by
  refine ⟨?_, ?_, ?_, rfl, rfl⟩
  · intro native st n i res loc reqBy inst dbin bd od children rest hid hres hin hbr hnew
    refine ⟨_, resolve_cons_root_new native st n i res loc reqBy inst dbin bd od children rest
      hid hres hbr hnew, ?_, rootInfo_install native res inst dbin n hin,
      rootInfo_name native res inst dbin n⟩
    show st.native_addons ++ (if strTruthy inst = true then [rootInfo native res inst dbin n]
      else []) = st.native_addons ++ [rootInfo native res inst dbin n]
    rw [if_pos hin]
  · intro native st n i res loc reqBy inst dbin bd od children rest hid hres hin hbr hnew
    refine ⟨_, resolve_cons_nested_new native st n i res loc reqBy inst dbin bd od children rest
      hid hres hbr hnew, ?_, nestedInfo_install res inst reqBy (i.getD "") hin,
      nestedInfo_name res inst reqBy (i.getD "")⟩
    show st.native_addons ++ (if strTruthy inst = true then [nestedInfo res inst reqBy (i.getD "")]
      else []) = st.native_addons ++ [nestedInfo res inst reqBy (i.getD "")]
    rw [if_pos hin]
  · intro native st n i res loc reqBy inst dbin bd od children rest r ps hid hres hin hbr hr hp
    refine ⟨_, resolve_cons_merge native st n i res loc reqBy inst dbin bd od children rest
      r ps hid hres hbr hr hp, ?_, baseInfo_install res inst hin, baseInfo_name res inst⟩
    show st.native_addons ++ (if strTruthy inst = true then [baseInfo res inst] else []) =
      st.native_addons ++ [baseInfo res inst]
    rw [if_pos hin]

/-- C7 witness: the three cases instantiated — root creation of P with
script `node-pre-gyp install`, first nested encounter of B\@1.0.0 with
script `prebuild`, and a merge encounter of B\@1.0.0 whose pushed entry has
no name. -/
theorem C7_native_addon_entries_witness :
    (∃ st1, resolveDependencies false initSt
        (.cons "P" (.mk (some "P@1.0.0") (some "https://r/p") "/P" ["/"]
          (some "node-pre-gyp install") none false false .nil) .nil) =
        contThen false (resolveDependencies false st1 .nil) .nil ∧
      st1.native_addons = ([] : List Info) ++
        [rootInfo false (some "https://r/p") (some "node-pre-gyp install") none "P"] ∧
      (rootInfo false (some "https://r/p") (some "node-pre-gyp install") none "P").install =
        some (rewriteInstall ((some "node-pre-gyp install").getD "")) ∧
      (rootInfo false (some "https://r/p") (some "node-pre-gyp install") none "P").name =
        some "P") ∧
    (∃ st1, resolveDependencies false initSt
        (.cons "B" (.mk (some "B@1.0.0") (some "https://r/b") "/A/node_modules/B" ["/A"]
          (some "prebuild") none false false .nil) .nil) =
        contThen false (resolveDependencies false st1 .nil) .nil ∧
      st1.native_addons = ([] : List Info) ++
        [nestedInfo (some "https://r/b") (some "prebuild") ["/A"] ((some "B@1.0.0").getD "")] ∧
      (nestedInfo (some "https://r/b") (some "prebuild") ["/A"]
          ((some "B@1.0.0").getD "")).install =
        some (rewriteInstall ((some "prebuild").getD "")) ∧
      (nestedInfo (some "https://r/b") (some "prebuild") ["/A"]
          ((some "B@1.0.0").getD "")).name = some ((some "B@1.0.0").getD "")) ∧
    (∃ st1, resolveDependencies false
        { initSt with resources := [("B@1.0.0",
            { url := "https://r/b", nested := some true, name := some "B@1.0.0",
              parent := some ["/A"] })] }
        (.cons "B" (.mk (some "B@1.0.0") (some "https://r/b") "/C/node_modules/B" ["/C"]
          (some "prebuild") none false false .nil) .nil) =
        contThen false (resolveDependencies false st1 .nil) .nil ∧
      st1.native_addons =
        { initSt with resources := [("B@1.0.0",
            ({ url := "https://r/b", nested := some true, name := some "B@1.0.0",
               parent := some ["/A"] } : Info))] }.native_addons ++
          [baseInfo (some "https://r/b") (some "prebuild")] ∧
      (baseInfo (some "https://r/b") (some "prebuild")).install =
        some (rewriteInstall ((some "prebuild").getD "")) ∧
      (baseInfo (some "https://r/b") (some "prebuild")).name = none) :=
  ⟨C7_native_addon_entries.1 false initSt "P" (some "P@1.0.0") (some "https://r/p") "/P" ["/"]
      (some "node-pre-gyp install") none false false .nil .nil
      (by rfl) (by rfl) (by rfl) (by rfl) (by rfl),
   (C7_native_addon_entries.2).1 false initSt "B" (some "B@1.0.0") (some "https://r/b")
      "/A/node_modules/B" ["/A"] (some "prebuild") none false false .nil .nil
      (by rfl) (by rfl) (by rfl) (by decide) (by rfl),
   ((C7_native_addon_entries.2).2).1 false
      { initSt with resources := [("B@1.0.0",
          { url := "https://r/b", nested := some true, name := some "B@1.0.0",
            parent := some ["/A"] })] }
      "B" (some "B@1.0.0") (some "https://r/b") "/C/node_modules/B" ["/C"]
      (some "prebuild") none false false .nil .nil
      { url := "https://r/b", nested := some true, name := some "B@1.0.0",
        parent := some ["/A"] } ["/A"]
      (by rfl) (by rfl) (by rfl) (by decide) (by rfl) (by rfl)⟩

/-- C8: the Hash Fetcher resolves immediately to null on an absent URL, and
on a URL that does not start with `https://` it logs exactly one warning and
resolves to null without error; in both cases no fetch is started (the
action is `resolveNull`, not `fetch`). -/
theorem C8_hash_fetcher_null :
    getHash none = ([], HashAction.resolveNull) ∧
    (∀ url : String, strStarts "https://" url = false →
      getHash (some url) = ([hashWarning url], HashAction.resolveNull)) := by
  refine ⟨rfl, ?_⟩
  intro url h
  show (if strStarts "https://" url = false then ([hashWarning url], HashAction.resolveNull)
    else ([], HashAction.fetch url)) = ([hashWarning url], HashAction.resolveNull)
  rw [h]
  simp

/-- C8 witness: the spec's example URL `git+ssh://example.com/pkg.git`
yields exactly one warning and a null resolution with no fetch. -/
theorem C8_hash_fetcher_null_witness :
    getHash (some "git+ssh://example.com/pkg.git") =
      ([hashWarning "git+ssh://example.com/pkg.git"], HashAction.resolveNull) :=
  C8_hash_fetcher_null.2 "git+ssh://example.com/pkg.git" (by rfl)

/-- C9: normalization pass 1 inserts a deferred root dependency's own
tree-location into the LocationIndex, mapped to its bare name, before
resolving that node's requirer locations — so a raw requirer location equal
to the deferred node's own (previously unindexed) location resolves to the
bare name instead of failing — and consequently, on a tree where nested
B\@1.0.0's pending-parent location is the location of the deferred (deduped)
root X, pass 2 resolves B's parent to X rather than raising the missing-
index error. -/
theorem C9_deferred_location_indexed :
    (∀ (st : St) (n : String) (d : DepNode) (r : Info),
        alookup st.resources n = some r → r.parent = none →
        alookup st.reverse_location (DepNode.location d) = none →
        DepNode.requiredBy d = [DepNode.location d] →
        ∃ st1, pass1Entry st n d = .ok st1 ∧
          alookup st1.reverse_location (DepNode.location d) = some n ∧
          (alookup st1.resources n).map Info.parent = some (some [n])) ∧
    (exOk (runResolve false c9Tree) = true ∧
      alookup (revlocOf (resolveDependencies false initSt c9Tree)) "/deduped/X" = none ∧
      alookup (revlocOf (runResolve false c9Tree)) "/deduped/X" = some "X" ∧
      (alookup (resourcesOf (runResolve false c9Tree)) "B@1.0.0").map Info.parent =
        some (some ["X"])) := by
  constructor
  · intro st n d r hr hp hnone hreq
    have hloop : resolveParentLoop (assocSet st.reverse_location (DepNode.location d) n)
        ("error normalizing nested root dependency: " ++ idStr d)
        [] [DepNode.location d] = .ok [n] := by
      rw [resolveParentLoop]
      rw [alookup_assocSet, if_pos rfl]
      show resolveParentLoop _ _ (if n ∈ ([] : List String) then [] else [] ++ [n]) [] = _
      rw [resolveParentLoop]
      simp
    have hacc : (Info.parent (if r.parent.isNone then { r with parent := some [] } else r)).getD []
        = [] := by
      rw [hp]
      simp
    have hstep : pass1Entry st n d = .ok { st with
        reverse_location := assocSet st.reverse_location (DepNode.location d) n,
        resources := assocSet st.resources n
          { (if r.parent.isNone then { r with parent := some [] } else r) with
            parent := some [n] } } := by
      unfold pass1Entry
      rw [hr]
      show (match resolveParentLoop (assocSet st.reverse_location (DepNode.location d) n)
          ("error normalizing nested root dependency: " ++ idStr d)
          ((Info.parent (if r.parent.isNone then { r with parent := some [] } else r)).getD [])
          (DepNode.requiredBy d) with
        | Except.error e => (Except.error e : Except String St)
        | Except.ok ps =>
            Except.ok { st with
              reverse_location := assocSet st.reverse_location (DepNode.location d) n,
              resources := assocSet st.resources n
                { (if r.parent.isNone then { r with parent := some [] } else r) with
                  parent := some ps } }) = _
      rw [hacc, hreq, hloop]
    refine ⟨_, hstep, ?_, ?_⟩
    · show alookup (assocSet st.reverse_location (DepNode.location d) n) (DepNode.location d)
        = some n
      rw [alookup_assocSet, if_pos rfl]
    · show (alookup (assocSet st.resources n _) n).map Info.parent = _
      rw [alookup_assocSet, if_pos rfl]
      rfl
  · exact ⟨rfl, rfl, rfl, rfl⟩

/-- C9 witness: the pass-1 characterization applied at a state holding a
root record X with no parents, for a deferred node located at an unindexed
location that is also its own raw requirer location. -/
theorem C9_deferred_location_indexed_witness :
    ∃ st1, pass1Entry
        { initSt with resources :=
            [("X", { url := "https://r/x", nested := some false, name := some "X" })] }
        "X" (.mk (some "X@1.0.0") none "/deduped/X" ["/deduped/X"] none none false false .nil) =
        .ok st1 ∧
      alookup st1.reverse_location (DepNode.location
        (.mk (some "X@1.0.0") none "/deduped/X" ["/deduped/X"] none none false false .nil)) =
        some "X" ∧
      (alookup st1.resources "X").map Info.parent = some (some ["X"]) :=
  C9_deferred_location_indexed.1
    { initSt with resources :=
        [("X", { url := "https://r/x", nested := some false, name := some "X" })] }
    "X" (.mk (some "X@1.0.0") none "/deduped/X" ["/deduped/X"] none none false false .nil)
    { url := "https://r/x", nested := some false, name := some "X" }
    (by rfl) (by rfl) (by rfl) (by rfl)

/-- C10: in the merge case, the existing record keeps its url, name, nested
flag, install command and bin mapping unchanged — only the pending-parent
list grows — and no new hash fetch is started for that identifier (the
per-key hash-action table and the log are untouched). -/
theorem C10_merge_frame :
    ∀ (native : Bool) (st : St) (n : String) (i res : Option String) (loc : String)
      (reqBy : List String) (inst : Option String) (dbin : Option (List (String × String)))
      (bd od : Bool) (children rest : DepList) (r : Info) (ps : List String),
      strTruthy i = true → strTruthy res = true →
      ¬ (getDepTreeBranch loc).length = 1 →
      alookup st.resources (i.getD "") = some r →
      r.parent = some ps →
      ∃ st1,
        resolveDependencies native st
            (.cons n (.mk i res loc reqBy inst dbin bd od children) rest) =
          contThen native (resolveDependencies native st1 children) rest ∧
        (∃ r', alookup st1.resources (i.getD "") = some r' ∧
          r'.url = r.url ∧ r'.name = r.name ∧ r'.nested = r.nested ∧
          r'.install = r.install ∧ r'.bin = r.bin ∧
          r'.parent = some (ps ++ reqBy)) ∧
        st1.resources_sha256s = st.resources_sha256s ∧
        st1.log = (warnStep st (.mk i res loc reqBy inst dbin bd od children)).log := by
  intro native st n i res loc reqBy inst dbin bd od children rest r ps hid hres hbr hr hp
  refine ⟨_, resolve_cons_merge native st n i res loc reqBy inst dbin bd od children rest
    r ps hid hres hbr hr hp, ?_, ?_, ?_⟩
  · refine ⟨{ r with parent := some (ps ++ reqBy) }, ?_, rfl, rfl, rfl, rfl, rfl, rfl⟩
    show alookup (assocSet st.resources (i.getD "") _) (i.getD "") = _
    rw [alookup_assocSet, if_pos rfl]
  · show (warnStep st _).resources_sha256s = st.resources_sha256s
    exact warnStep_sha256s _ _
  · rfl

/-- C10 witness: merge-case frame at a concrete state holding B\@1.0.0 with
an install command, a bin mapping and a pending parent; processing a second
occurrence leaves every field but the pending-parent list unchanged and
starts no hash fetch. -/
theorem C10_merge_frame_witness :
    ∃ st1,
      resolveDependencies false
          { initSt with
            resources := [("B@1.0.0",
              { url := "https://r/b", install := some "prebuild --compile",
                bin := some [("b", "bin/b")], nested := some true,
                name := some "B@1.0.0", parent := some ["/A"] })],
            resources_sha256s := [("B@1.0.0", HashAction.fetch "https://r/b")] }
          (.cons "B" (.mk (some "B@1.0.0") (some "https://r/b") "/C/node_modules/B" ["/C"]
            none none false false .nil) .nil) =
        contThen false (resolveDependencies false st1 .nil) .nil ∧
      (∃ r', alookup st1.resources "B@1.0.0" = some r' ∧
        r'.url =
          ({ url := "https://r/b", install := some "prebuild --compile",
             bin := some [("b", "bin/b")], nested := some true, name := some "B@1.0.0",
             parent := some ["/A"] } : Info).url ∧
        r'.name =
          ({ url := "https://r/b", install := some "prebuild --compile",
             bin := some [("b", "bin/b")], nested := some true, name := some "B@1.0.0",
             parent := some ["/A"] } : Info).name ∧
        r'.nested =
          ({ url := "https://r/b", install := some "prebuild --compile",
             bin := some [("b", "bin/b")], nested := some true, name := some "B@1.0.0",
             parent := some ["/A"] } : Info).nested ∧
        r'.install =
          ({ url := "https://r/b", install := some "prebuild --compile",
             bin := some [("b", "bin/b")], nested := some true, name := some "B@1.0.0",
             parent := some ["/A"] } : Info).install ∧
        r'.bin =
          ({ url := "https://r/b", install := some "prebuild --compile",
             bin := some [("b", "bin/b")], nested := some true, name := some "B@1.0.0",
             parent := some ["/A"] } : Info).bin ∧
        r'.parent = some (["/A"] ++ ["/C"])) ∧
      st1.resources_sha256s =
        { initSt with
          resources := [("B@1.0.0",
            ({ url := "https://r/b", install := some "prebuild --compile",
               bin := some [("b", "bin/b")], nested := some true,
               name := some "B@1.0.0", parent := some ["/A"] } : Info))],
          resources_sha256s :=
            [("B@1.0.0", HashAction.fetch "https://r/b")] }.resources_sha256s ∧
      st1.log = (warnStep
        { initSt with
          resources := [("B@1.0.0",
            ({ url := "https://r/b", install := some "prebuild --compile",
               bin := some [("b", "bin/b")], nested := some true,
               name := some "B@1.0.0", parent := some ["/A"] } : Info))],
          resources_sha256s := [("B@1.0.0", HashAction.fetch "https://r/b")] }
        (.mk (some "B@1.0.0") (some "https://r/b") "/C/node_modules/B" ["/C"]
          none none false false .nil)).log :=
  C10_merge_frame false
    { initSt with
      resources := [("B@1.0.0",
        { url := "https://r/b", install := some "prebuild --compile",
          bin := some [("b", "bin/b")], nested := some true,
          name := some "B@1.0.0", parent := some ["/A"] })],
      resources_sha256s := [("B@1.0.0", HashAction.fetch "https://r/b")] }
    "B" (some "B@1.0.0") (some "https://r/b") "/C/node_modules/B" ["/C"] none none false false
    .nil .nil
    { url := "https://r/b", install := some "prebuild --compile",
      bin := some [("b", "bin/b")], nested := some true, name := some "B@1.0.0",
      parent := some ["/A"] }
    ["/A"] (by rfl) (by rfl) (by decide) (by rfl) (by rfl)
